import Mathlib

/-!
Shallow embedding of the repository's two scripts:
  scripts/validate-schema.py        (schema validation of operation files)
  scripts/validate-dependencies.py  (reference checking, cycle detection, statistics)

Parsed YAML documents are modelled by the `Yaml` type below.  Python's
truthiness, `str()`, `type(x).__name__`, `in` and indexing semantics are
modelled by the `py*` helpers.  A Python `bool` satisfies `isinstance(_, int)`,
which `pyIsInt` reflects.  File I/O and YAML deserialization are abstracted:
a file is a pair of a path and a `LoadResult` (the outcome of `yaml.safe_load`).
Exception texts raised by Python for bad `in`/indexing are abbreviated; no
theorem depends on their wording, only on the `"Unexpected error: "` prefix
produced by the `except` handler of `validate_operation`.
-/

/-- A parsed YAML value, as produced by `yaml.safe_load`.  Mapping keys are
modelled as strings (the scripts' mappings are declared `Dict[str, Dict]`). -/
inductive Yaml where
  | null : Yaml
  | bool (b : Bool) : Yaml
  | int (n : Int) : Yaml
  | str (s : String) : Yaml
  | list (xs : List Yaml) : Yaml
  | dict (entries : List (String × Yaml)) : Yaml

/-- Python truthiness of a parsed YAML value. -/
def pyTruthy : Yaml → Bool
  | .null => false
  | .bool b => b
  | .int n => n != 0
  | .str s => s != ""
  | .list xs => !xs.isEmpty
  | .dict es => !es.isEmpty

/-- Python `repr` of a parsed YAML value (string escaping inside containers is
simplified: quotes are added, escape sequences are not rendered). -/
def pyRepr : Yaml → String
  | .null => "None"
  | .bool true => "True"
  | .bool false => "False"
  | .int n => toString n
  | .str s => "'" ++ s ++ "'"
  | .list xs => "[" ++ String.intercalate ", " (pyReprL xs) ++ "]"
  | .dict es => "\x7b" ++ String.intercalate ", " (pyReprD es) ++ "\x7d"
where
  pyReprL : List Yaml → List String
    | [] => []
    | x :: xs => pyRepr x :: pyReprL xs
  pyReprD : List (String × Yaml) → List String
    | [] => []
    | (k, v) :: es => ("'" ++ k ++ "': " ++ pyRepr v) :: pyReprD es

/-- Python `str()` of a parsed YAML value (as interpolated by f-strings). -/
def pyStr : Yaml → String
  | .str s => s
  | v => pyRepr v

/-- Python `type(x).__name__` for a parsed YAML value. -/
def pyTypeName : Yaml → String
  | .null => "NoneType"
  | .bool _ => "bool"
  | .int _ => "int"
  | .str _ => "str"
  | .list _ => "list"
  | .dict _ => "dict"

/-- Python `isinstance(x, int)`: note that Python booleans are integers. -/
def pyIsInt : Yaml → Bool
  | .int _ => true
  | .bool _ => true
  | _ => false

/-- The integer value Python arithmetic sees (`True == 1`, `False == 0`). -/
def pyIntVal : Yaml → Int
  | .int n => n
  | .bool true => 1
  | .bool false => 0
  | _ => 0

/-- Dictionary key lookup (`d[k]` / `d.get(k)`); first matching entry wins. -/
def pyGet (es : List (String × Yaml)) (k : String) : Option Yaml :=
  match es.find? (fun p => p.1 == k) with
  | some p => some p.2
  | none => none

/-- Whether character list `p` is an initial segment of `l`. -/
def chStarts : List Char → List Char → Bool
  | [], _ => true
  | _ :: _, [] => false
  | a :: as, b :: bs => a == b && chStarts as bs

/-- Whether character list `p` occurs contiguously inside `l`
(Python's substring containment `p in l`). -/
def chSub (p : List Char) : List Char → Bool
  | [] => p.isEmpty
  | c :: t => chStarts p (c :: t) || chSub p t

/-- Outcome of Python's `k in container` for a string `k`: either a boolean,
or a `TypeError` (for non-iterable containers). -/
inductive MemRes where
  | ok (b : Bool)
  | typeErr (msg : String)

/-- Python `k in container` for a string key `k`: key membership for dicts,
substring containment for strings, element equality for lists, and a
`TypeError` otherwise. -/
def pyHasKey (container : Yaml) (k : String) : MemRes :=
  match container with
  | .dict es => .ok (es.any (fun p => p.1 == k))
  | .str s => .ok (chSub k.data s.data)
  | .list xs => .ok (xs.any (fun y => match y with | .str t => t == k | _ => false))
  | v => .typeErr ("argument of type '" ++ pyTypeName v ++ "' is not iterable")

/-- The `TypeError` message for `container[k]` with a string key on a
non-mapping container (abbreviated). -/
def indexErrMsg : Yaml → String
  | .str _ => "string indices must be integers"
  | .list _ => "list indices must be integers or slices, not str"
  | v => "'" ++ pyTypeName v ++ "' object is not subscriptable"

/-- Scans `container` for the given keys in order, as the validator's
`if k in container: container[k]` sequences do on a non-dict container:
returns the first raised `TypeError` text, or `none` when every test is
`False` without raising. -/
def scanKeysErr (container : Yaml) : List String → Option String
  | [] => none
  | k :: rest =>
    match pyHasKey container k with
    | .typeErr m => some m
    | .ok true => some (indexErrMsg container)
    | .ok false => scanKeysErr container rest

/-- Concatenation of `f` over a list (order-preserving accumulation of
per-item error messages). -/
def cmap (f : α → List β) : List α → List β
  | [] => []
  | a :: l => f a ++ cmap f l

/-! Constants of scripts/validate-schema.py. -/

/-- Required fields (dot-notation for nested access). -/
def REQUIRED_FIELDS : List String := [
  "operation.id",
  "operation.name",
  "operation.description",
  "operation.capability",
  "operation.operation_mode",
  "operation.resource_type",
  "operation.duration.expected",
  "operation.duration.timeout",
  "operation.duration.type",
  "operation.template.type",
  "operation.template.command"]

/-- Valid enum values for `operation_mode`. -/
def VALID_OPERATION_MODES : List String := [
  "create", "configure", "validate", "update", "delete", "read",
  "modify", "adopt", "assign", "verify", "add", "remove", "drain"]

/-- Valid enum values for `duration.type`. -/
def VALID_DURATION_TYPES : List String := ["FAST", "NORMAL", "WAIT", "LONG"]

/-- Valid enum values for `capability`. -/
def VALID_CAPABILITIES : List String := [
  "networking", "storage", "identity", "compute", "avd", "management", "test-capability"]

/-- Valid enum values for `template.type`. -/
def VALID_TEMPLATE_TYPES : List String := [
  "powershell-local", "powershell-remote", "powershell-vm-command",
  "azure-cli", "bash", "bash-script"]

/-- Optional fields that should be validated if present. -/
def OPTIONAL_BOOLEAN_FIELDS : List String := [
  "validation.enabled",
  "idempotency.enabled",
  "rollback.enabled"]

/-! The schema validator (validate_operation of scripts/validate-schema.py). -/

/-- Navigation step of `get_nested_value`: walk the split path through nested
dictionaries; any miss (or non-dict on the way) returns `(None, False)`. -/
def getNested : List String → Yaml → Yaml × Bool
  | [], cur => (cur, true)
  | p :: rest, cur =>
    match cur with
    | .dict es =>
      match pyGet es p with
      | some v => getNested rest v
      | none => (.null, false)
    | _ => (.null, false)

/-- Python `path.split('.')` (splitting the path on every dot). -/
def splitPath (acc : List Char) : List Char → List String
  | [] => [String.mk acc.reverse]
  | c :: rest =>
    if c == '.' then String.mk acc.reverse :: splitPath [] rest
    else splitPath (c :: acc) rest

/-- Navigate a nested dictionary using dot-notation; returns `(value, exists)`. -/
def get_nested_value (data : Yaml) (path : String) : Yaml × Bool :=
  getNested (splitPath [] path.data) data

/-- Python's `value.strip() == ''` guarded by `isinstance(value, str)`: the
string consists of whitespace only. -/
def isBlankString : Yaml → Bool
  | .str s => s.data.all Char.isWhitespace
  | _ => false

/-- Python `value is None`. -/
def isNoneY : Yaml → Bool
  | .null => true
  | _ => false

/-- One iteration of the required-field loop: a "Missing required field"
message when the path does not exist, an "Empty value for required field"
message when the value is `None` or a blank string. -/
def reqEmit (data : Yaml) (fp : String) : List String :=
  if !(get_nested_value data fp).2 then ["Missing required field: " ++ fp]
  else if isNoneY (get_nested_value data fp).1 || isBlankString (get_nested_value data fp).1 then
    ["Empty value for required field: " ++ fp]
  else []

/-- The required-field loop of `validate_operation`. -/
def requiredFieldErrors (data : Yaml) : List String :=
  cmap (reqEmit data) REQUIRED_FIELDS

/-- Python `v in l` for a list `l` of strings (equality across types is false). -/
def strElem (v : Yaml) (l : List String) : Bool :=
  match v with
  | .str s => l.contains s
  | _ => false

/-- The `operation_mode` enum check. -/
def operationModeErrors (op : List (String × Yaml)) : List String :=
  match pyGet op "operation_mode" with
  | none => []
  | some mode =>
    if strElem mode VALID_OPERATION_MODES then []
    else ["Invalid operation_mode: '" ++ pyStr mode ++ "' (must be one of: " ++
          String.intercalate ", " VALID_OPERATION_MODES ++ ")"]

/-- The `capability` enum check. -/
def capabilityErrors (op : List (String × Yaml)) : List String :=
  match pyGet op "capability" with
  | none => []
  | some cap =>
    if strElem cap VALID_CAPABILITIES then []
    else ["Invalid capability: '" ++ pyStr cap ++ "' (must be one of: " ++
          String.intercalate ", " VALID_CAPABILITIES ++ ")"]

/-- The `duration.type` enum check (given `duration` is a dict). -/
def durationTypeErrors (d : List (String × Yaml)) : List String :=
  match pyGet d "type" with
  | none => []
  | some dtype =>
    if strElem dtype VALID_DURATION_TYPES then []
    else ["Invalid duration.type: '" ++ pyStr dtype ++ "' (must be one of: " ++
          String.intercalate ", " VALID_DURATION_TYPES ++ ")"]

/-- The `duration.expected` integer/positivity checks. -/
def durationExpectedErrors (d : List (String × Yaml)) : List String :=
  match pyGet d "expected" with
  | none => []
  | some v =>
    if !pyIsInt v then ["duration.expected must be integer, got: " ++ pyTypeName v]
    else if pyIntVal v ≤ 0 then ["duration.expected must be positive, got: " ++ pyStr v]
    else []

/-- The `duration.timeout` integer/positivity checks. -/
def durationTimeoutErrors (d : List (String × Yaml)) : List String :=
  match pyGet d "timeout" with
  | none => []
  | some v =>
    if !pyIsInt v then ["duration.timeout must be integer, got: " ++ pyTypeName v]
    else if pyIntVal v ≤ 0 then ["duration.timeout must be positive, got: " ++ pyStr v]
    else []

/-- The timeout-vs-expected ordering check. -/
def durationOrderErrors (d : List (String × Yaml)) : List String :=
  match pyGet d "expected", pyGet d "timeout" with
  | some e, some t =>
    if pyIsInt e && pyIsInt t then
      if pyIntVal t < pyIntVal e then
        ["duration.timeout (" ++ pyStr t ++ ") should be >= duration.expected (" ++
         pyStr e ++ ")"]
      else []
    else []
  | _, _ => []

/-- The full duration block: on a dict it accumulates the four sub-checks; on a
non-dict container the key tests `'type' in duration` etc. may raise. -/
def durationSection (duration : Yaml) : Except String (List String) :=
  match duration with
  | .dict d =>
    .ok (durationTypeErrors d ++ durationExpectedErrors d ++
         durationTimeoutErrors d ++ durationOrderErrors d)
  | v =>
    match scanKeysErr v ["type", "expected", "timeout"] with
    | some m => .error m
    | none => .ok []

/-- The `template.type` enum check; `'type' in operation['template']` may raise
on a non-dict template value. -/
def templateSection (op : List (String × Yaml)) : Except String (List String) :=
  match pyGet op "template" with
  | none => .ok []
  | some t =>
    match t with
    | .dict tes =>
      match pyGet tes "type" with
      | none => .ok []
      | some ttype =>
        if strElem ttype VALID_TEMPLATE_TYPES then .ok []
        else .ok ["Invalid template.type: '" ++ pyStr ttype ++ "' (must be one of: " ++
                  String.intercalate ", " VALID_TEMPLATE_TYPES ++ ")"]
    | v =>
      match pyHasKey v "type" with
      | .typeErr m => .error m
      | .ok true => .error (indexErrMsg v)
      | .ok false => .ok []

/-- The optional boolean field checks (looked up from the document root). -/
def optionalBooleanErrors (data : Yaml) : List String :=
  cmap (fun fp =>
    match get_nested_value data fp with
    | (_, false) => []
    | (Yaml.null, true) => []
    | (Yaml.bool _, true) => []
    | (v, true) => [fp ++ " must be boolean, got: " ++ pyTypeName v])
    OPTIONAL_BOOLEAN_FIELDS

/-- Per-item parameter checks (`name`/`type`/`description` keys), indexed. -/
def paramItemErrors (ptype : String) (i : Nat) (param : Yaml) : List String :=
  match param with
  | .dict pes =>
    (if pes.any (fun p => p.1 == "name") then []
     else ["operation.parameters." ++ ptype ++ "[" ++ toString i ++ "] missing 'name'"]) ++
    (if pes.any (fun p => p.1 == "type") then []
     else ["operation.parameters." ++ ptype ++ "[" ++ toString i ++ "] missing 'type'"]) ++
    (if pes.any (fun p => p.1 == "description") then []
     else ["operation.parameters." ++ ptype ++ "[" ++ toString i ++ "] missing 'description'"])
  | _ => ["operation.parameters." ++ ptype ++ "[" ++ toString i ++ "] must be a dictionary"]

/-- The enumerate loop over one parameter list. -/
def paramListErrors (ptype : String) : Nat → List Yaml → List String
  | _, [] => []
  | i, p :: rest => paramItemErrors ptype i p ++ paramListErrors ptype (i + 1) rest

/-- Checks of `parameters.required` / `parameters.optional` when present. -/
def paramTypeErrors (params : List (String × Yaml)) (ptype : String) : List String :=
  match pyGet params ptype with
  | none => []
  | some (.list xs) => paramListErrors ptype 0 xs
  | some _ => ["operation.parameters." ++ ptype ++ " must be a list"]

/-- The parameters block of `validate_operation`. -/
def parametersSection (op : List (String × Yaml)) : List String :=
  match pyGet op "parameters" with
  | none => []
  | some (.dict pes) =>
    (if pes.any (fun p => p.1 == "required") || pes.any (fun p => p.1 == "optional") then []
     else ["operation.parameters should have 'required' and/or 'optional' keys"]) ++
    paramTypeErrors pes "required" ++ paramTypeErrors pes "optional"
  | some _ => ["operation.parameters must be a dictionary"]

/-- Per-step rollback checks (`name`/`command` keys), indexed. -/
def rollbackStepErrors : Nat → List Yaml → List String
  | _, [] => []
  | i, s :: rest =>
    (match s with
     | .dict ses =>
       (if ses.any (fun p => p.1 == "name") then []
        else ["operation.rollback.steps[" ++ toString i ++ "] missing 'name'"]) ++
       (if ses.any (fun p => p.1 == "command") then []
        else ["operation.rollback.steps[" ++ toString i ++ "] missing 'command'"])
     | _ => ["operation.rollback.steps[" ++ toString i ++ "] must be a dictionary"]) ++
    rollbackStepErrors (i + 1) rest

/-- The rollback block of `validate_operation`. -/
def rollbackSection (op : List (String × Yaml)) : List String :=
  match pyGet op "rollback" with
  | none => []
  | some (.dict res) =>
    (match pyGet res "enabled" with
     | some en =>
       if pyTruthy en then
         match pyGet res "steps" with
         | none => ["operation.rollback.steps required when enabled=true"]
         | some (.list steps) => rollbackStepErrors 0 steps
         | some _ => ["operation.rollback.steps must be a list"]
       else []
     | none => [])
  | some _ => ["operation.rollback must be a dictionary"]

/-- List-shape check of one key of the validation block. -/
def checkListKey (ves : List (String × Yaml)) (k : String) : List String :=
  match pyGet ves k with
  | none => []
  | some (.list _) => []
  | some _ => ["operation.validation." ++ k ++ " must be a list"]

/-- The validation block of `validate_operation`. -/
def validationSection (op : List (String × Yaml)) : List String :=
  match pyGet op "validation" with
  | none => []
  | some (.dict ves) =>
    checkListKey ves "checks" ++ checkListKey ves "pre_checks" ++ checkListKey ves "post_checks"
  | some _ => ["operation.validation must be a dictionary"]

/-- Runs the post-required sections in order, accumulating their messages; a
raised exception stops the remaining sections and is reported by the outer
`except` handler as a single "Unexpected error" message. -/
def catSections : List (Except String (List String)) → List String
  | [] => []
  | .ok es :: rest => es ++ catSections rest
  | .error m :: _ => ["Unexpected error: " ++ m]

/-- The body of `validate_operation` when `data['operation']` is a dict
(or absent, in which case `operation = {}`). -/
def dictOpErrors (data : Yaml) (op : List (String × Yaml)) : List String :=
  catSections [
    .ok (operationModeErrors op),
    .ok (capabilityErrors op),
    (match pyGet op "duration" with
     | none => Except.ok []
     | some d => durationSection d),
    templateSection op,
    .ok (optionalBooleanErrors data),
    .ok (parametersSection op),
    .ok (rollbackSection op),
    .ok (validationSection op)]

/-- The body of `validate_operation` when `data['operation']` is present and
not a dict: the `in` tests walk the enum/duration/template keys (substring
semantics on strings, element semantics on lists, `TypeError` otherwise), any
hit raising at the subsequent indexing; then the optional boolean fields on
the root; then the parameters/rollback/validation keys the same way. -/
def nonDictOpErrors (data : Yaml) (op : Yaml) : List String :=
  match scanKeysErr op ["operation_mode", "capability", "duration", "template"] with
  | some m => ["Unexpected error: " ++ m]
  | none =>
    optionalBooleanErrors data ++
    (match scanKeysErr op ["parameters", "rollback", "validation"] with
     | some m => ["Unexpected error: " ++ m]
     | none => [])

/-- Validation of one successfully deserialized document: the `if not data`
guard, the required-field loop, then the per-section checks on
`data.get('operation', {})`.  On a non-dict root, `data.get` raises
`AttributeError`, caught by the outer handler. -/
def validateData (data : Yaml) : List String :=
  if !pyTruthy data then ["Empty or invalid YAML file"]
  else
    match data with
    | .dict des =>
      (match pyGet des "operation" with
       | some (.dict oes) => requiredFieldErrors data ++ dictOpErrors data oes
       | some v => requiredFieldErrors data ++ nonDictOpErrors data v
       | none => requiredFieldErrors data ++ dictOpErrors data [])
    | v =>
      requiredFieldErrors v ++
      ["Unexpected error: '" ++ pyTypeName v ++ "' object has no attribute 'get'"]

/-- Outcome of opening and deserializing one file. -/
inductive LoadResult where
  | ok (data : Yaml)
  | yamlError (msg : String)
  | loadError (msg : String)

/-- Validate a single operation file against the schema; returns the list of
error messages (empty if valid).  A deserialization failure is reported as a
single message by the `except yaml.YAMLError` / `except Exception` handlers. -/
def validate_operation : LoadResult → List String
  | .ok data => validateData data
  | .yamlError m => ["YAML parsing error: " ++ m]
  | .loadError m => ["Unexpected error: " ++ m]

/-! The dependency validator (scripts/validate-dependencies.py). -/

/-- One loaded operation record, as stored by `load_operations`. -/
structure Op where
  file : String
  name : Yaml
  requires : Yaml
  capability : Yaml

/-- The record built for one file: `name`/`requires`/`capability` defaults are
applied only when the key is absent (a present `None` is kept). -/
def mkOp (fp : String) (oes : List (String × Yaml)) : Op :=
  { file := fp,
    name := (pyGet oes "name").getD (.str "Unknown"),
    requires := (pyGet oes "requires").getD (.list []),
    capability := (pyGet oes "capability").getD (.str "unknown") }

/-- Insertion into the operations dict: an existing id keeps its position and
is overwritten (Python dict assignment), a new id is appended. -/
def dictInsert (m : List (String × Op)) (k : String) (v : Op) : List (String × Op) :=
  if m.any (fun p => p.1 == k) then
    m.map (fun p => if p.1 == k then (k, v) else p)
  else m ++ [(k, v)]

/-- Load all operations and build the id-to-record mapping.  A file whose load
raised, whose document is falsy or lacks an `operation` key, whose `operation`
value is not a dict, or whose id is falsy, contributes nothing (the exceptions
the non-dict shapes raise are caught by the loop's `except`, which skips the
file).  Ids are modelled as strings per the declared `Dict[str, Dict]` type;
a file with a truthy non-string id is outside the modelled domain and is
skipped here. -/
def load_operations (files : List (String × LoadResult)) : List (String × Op) :=
  files.foldl (fun ops f =>
    match f.2 with
    | .ok (.dict des) =>
      if (Yaml.dict des) |> pyTruthy then
        match pyGet des "operation" with
        | some (.dict oes) =>
          (match pyGet oes "id" with
           | some (.str s) => if s != "" then dictInsert ops s (mkOp f.1 oes) else ops
           | _ => ops)
        | _ => ops
      else ops
    | _ => ops) []

/-- Resolution of one `requires` entry: a dict is replaced by its `operation`
value (default `''`); anything else passes through unchanged. -/
def resolveDep : Yaml → Yaml
  | .dict es => (pyGet es "operation").getD (.str "")
  | v => v

/-- The inner loop of `find_missing_dependencies` over one record's `requires`
list.  A falsy resolved entry is skipped; a resolved string not among the
loaded ids, or any truthy non-string hashable value (never equal to a string
id), is reported; a truthy list/dict raises `TypeError: unhashable type` at
the set-membership test, modelled by the `true` flag (the partial list is then
discarded by the crashed run). -/
def scanMissing (ids : List String) (op_id fp : String) :
    List Yaml → List (String × Yaml × String) × Bool
  | [] => ([], false)
  | dep :: rest =>
    let d := resolveDep dep
    if !pyTruthy d then scanMissing ids op_id fp rest
    else
      match d with
      | .str s =>
        if ids.contains s then scanMissing ids op_id fp rest
        else
          let r := scanMissing ids op_id fp rest
          ((op_id, Yaml.str s, fp) :: r.1, r.2)
      | .int n =>
        let r := scanMissing ids op_id fp rest
        ((op_id, Yaml.int n, fp) :: r.1, r.2)
      | .bool b =>
        let r := scanMissing ids op_id fp rest
        ((op_id, Yaml.bool b, fp) :: r.1, r.2)
      | _ => ([], true)

/-- The outer loop of `find_missing_dependencies`: records whose `requires`
is not a list are skipped entirely. -/
def fmGo (ids : List String) : List (String × Op) → List (String × Yaml × String) × Bool
  | [] => ([], false)
  | (op_id, od) :: rest =>
    match od.requires with
    | .list deps =>
      let r := scanMissing ids op_id od.file deps
      if r.2 then (r.1, true)
      else
        let r2 := fmGo ids rest
        (r.1 ++ r2.1, r2.2)
    | _ => fmGo ids rest

/-- Find dependencies that reference non-existent operations; the flag records
a raised `TypeError` (unhashable `requires` entry), which aborts the script. -/
def find_missing_dependencies (ops : List (String × Op)) :
    List (String × Yaml × String) × Bool :=
  fmGo (ops.map (fun p => p.1)) ops

/-- Lookup of `operations[k]` / `operations.get(k)`. -/
def opLookup (ops : List (String × Op)) (k : String) : Option Op :=
  match ops.find? (fun p => p.1 == k) with
  | some p => some p.2
  | none => none

/-- The dependency list the DFS iterates for `node`:
`operations.get(node, {}).get('requires', [])`, with the subsequent
`isinstance(requires, list)` guard folding non-lists to no iterations. -/
def reqList (ops : List (String × Op)) (node : String) : List Yaml :=
  match opLookup ops node with
  | some o =>
    match o.requires with
    | .list ds => ds
    | _ => []
  | none => []

/-- Python `rec_stack.index(x)` (first occurrence). -/
def listIdx (x : String) : List String → Nat
  | [] => 0
  | y :: ys => if y == x then 0 else listIdx x ys + 1

/-- Traversal state of the cycle detector.  `visited` is the per-root set,
`visitedGlobal` the shared accumulator (kept as the exact entry sequence, so
repeated visits stay observable; membership tests agree with the Python set).
`err` models a propagating `TypeError` (unhashable resolved entry at the
`dep not in operations` test): once set, every later step leaves the state
untouched, like the propagating exception. -/
structure CycSt where
  visited : List String
  visitedGlobal : List String
  cycles : List (List String)
  err : Bool
deriving DecidableEq

/-- The dependency loop of `dfs`, parameterized by the recursive call `rec`
(the DFS at the remaining fuel).  Mirrors, in order: entry resolution, the
`if not dep or dep not in operations: continue` guard, the recursion on
unvisited nodes, and the recursion-stack cycle check with exact-sequence
deduplication. -/
def depsLoop (rec : String → List String → CycSt → CycSt)
    (ops : List (String × Op)) (rs : List String) :
    List Yaml → CycSt → CycSt
  | [], st => st
  | dep :: rest, st =>
    if st.err then st else
    let d := resolveDep dep
    if !pyTruthy d then depsLoop rec ops rs rest st
    else
      match d with
      | .str s =>
        if !(ops.any (fun p => p.1 == s)) then depsLoop rec ops rs rest st
        else if !(st.visited.contains s) then depsLoop rec ops rs rest (rec s rs st)
        else if rs.contains s then
          let cycle := rs.drop (listIdx s rs) ++ [s]
          let st' := if st.cycles.contains cycle then st
                     else { st with cycles := st.cycles ++ [cycle] }
          depsLoop rec ops rs rest st'
        else depsLoop rec ops rs rest st
      | .int _ => depsLoop rec ops rs rest st
      | .bool _ => depsLoop rec ops rs rest st
      | _ => { st with err := true }

/-- The recursive DFS of `detect_circular_dependencies`.  `fuel` bounds the
recursion depth; since a call recurses only into nodes absent from the
threaded `visited` set and every entered node is added to it first, the depth
never exceeds the number of loaded ids, so the `ops.length + 1` budget used
below never runs out.  The recursion stack is passed down (push on entry) and
unchanged in the caller (the `pop` on exit). -/
def dfs (ops : List (String × Op)) : Nat → String → List String → CycSt → CycSt
  | 0, _, _, st => st
  | fuel + 1, node, recStack, st =>
    if st.err then st else
    let st1 : CycSt := { st with visited := st.visited ++ [node],
                                 visitedGlobal := st.visitedGlobal ++ [node] }
    depsLoop (dfs ops fuel) ops (recStack ++ [node]) (reqList ops node) st1

/-- The root loop of `detect_circular_dependencies`: every id not yet in the
global visited set starts a fresh search (empty per-root visited set, empty
recursion stack). -/
def detectSt (ops : List (String × Op)) : CycSt :=
  ops.foldl (fun st p =>
    if st.err then st
    else if st.visitedGlobal.contains p.1 then st
    else dfs ops (ops.length + 1) p.1 [] { st with visited := [] })
    ⟨[], [], [], false⟩

/-- Detect circular dependencies using DFS. -/
def detect_circular_dependencies (ops : List (String × Op)) : List (List String) :=
  (detectSt ops).cycles

/-- The statistics record of `build_dependency_stats`. -/
structure Stats where
  total_operations : Nat
  operations_with_deps : Nat
  total_dependencies : Nat
  max_dependencies : Nat
  most_dependent_op : Option String
deriving DecidableEq

/-- Python `len` on a parsed YAML value; `none` models the `TypeError` raised
on unsized values. -/
def pyLen : Yaml → Option Nat
  | .str s => some s.length
  | .list xs => some xs.length
  | .dict es => some es.length
  | _ => none

/-- The accumulation loop of `build_dependency_stats`; `none` models the
propagating `TypeError` of `len(requires)` on a truthy unsized value. -/
def statsGo : List (String × Op) → Stats → Option Stats
  | [], st => some st
  | (op_id, od) :: rest, st =>
    if !pyTruthy od.requires then statsGo rest st
    else
      match pyLen od.requires with
      | none => none
      | some n =>
        if n > 0 then
          let st1 := { st with operations_with_deps := st.operations_with_deps + 1,
                               total_dependencies := st.total_dependencies + n }
          let st2 := if n > st1.max_dependencies then
                       { st1 with max_dependencies := n, most_dependent_op := some op_id }
                     else st1
          statsGo rest st2
        else statsGo rest st

/-- Build statistics about dependencies (counting raw `requires` entries). -/
def build_dependency_stats (ops : List (String × Op)) : Option Stats :=
  statsGo ops
    { total_operations := ops.length,
      operations_with_deps := 0,
      total_dependencies := 0,
      max_dependencies := 0,
      most_dependent_op := none }

/-- Exit status of scripts/validate-schema.py `main` on the given path/files
(1 for a missing path or no matched files; otherwise 1 exactly when some file
validates with a nonempty error list). -/
def validateSchemaMain (pathExists : Bool) (files : List (String × LoadResult)) : Nat :=
  if !pathExists then 1
  else if files.isEmpty then 1
  else if (files.filter (fun f => !(validate_operation f.2).isEmpty)).length > 0 then 1
  else 0

/-- Exit status of scripts/validate-dependencies.py `main`: 1 for a missing
path or no matched files; a `TypeError` escaping the reference check, the
cycle detector or the statistics pass crashes the interpreter (status 1);
otherwise 1 exactly when a missing dependency or a cycle was found. -/
def validateDependenciesMain (pathExists : Bool) (files : List (String × LoadResult)) : Nat :=
  if !pathExists then 1
  else if files.isEmpty then 1
  else if (find_missing_dependencies (load_operations files)).2 then 1
  else if (detectSt (load_operations files)).err then 1
  else
    match build_dependency_stats (load_operations files) with
    | none => 1
    | some _ =>
      if !(find_missing_dependencies (load_operations files)).1.isEmpty ||
         !(detectSt (load_operations files)).cycles.isEmpty then 1
      else 0

/-! Specification-side definitions (used to state graph-level properties; the
requires-graph below is the spec's: nodes are the loaded ids, and an edge goes
from a record to each entry of its `requires` list that resolves to a truthy
id of a loaded record). -/

/-- Modelled from the spec: the resolved, truthy, loaded dependency ids of one
node — exactly the entries the DFS descends into or checks on the stack. -/
def effDeps (ops : List (String × Op)) (node : String) : List String :=
  (reqList ops node).filterMap fun dep =>
    match resolveDep dep with
    | .str s => if s != "" && ops.any (fun p => p.1 == s) then some s else none
    | _ => none

/-- Modelled from the spec: the edge relation of the requires-graph. -/
def edgeRel (ops : List (String × Op)) (a b : String) : Prop :=
  b ∈ effDeps ops a

/-- Modelled from the spec: a graph is acyclic when no node reaches itself by
a nonempty path of requires-edges. -/
def Acyclic (ops : List (String × Op)) : Prop :=
  ∀ a, ¬ Relation.TransGen (edgeRel ops) a a

/-- Modelled from the spec: the total number of edges of the requires-graph. -/
def specEdgeCount (ops : List (String × Op)) : Nat :=
  (ops.map (fun p => (effDeps ops p.1).length)).sum

/-- Raw length of a `requires` value (what the statistics actually count for
sized values). -/
def rawLen (y : Yaml) : Nat := (pyLen y).getD 0

/-- Modelled from the spec: the id of the FIRST operation whose raw
`requires` length equals the given maximum (the strict `>` update of the
statistics loop keeps the first attaining record). -/
def firstMaxOwner (ops : List (String × Op)) (m : Nat) : Option String :=
  Option.map (fun q => q.1) (ops.find? (fun q => rawLen q.2.requires == m))

/-! Helper lemmas about message strings and counting. -/

/-- First character of a message string. -/
def headCh (s : String) : Option Char := s.data.head?

/-- Character of a message string at position `k`. -/
def chAt (s : String) (k : Nat) : Option Char := s.data.get? k

lemma ne_of_chAt {a b : String} (k : Nat) (h : chAt a k = chAt b k → False) : a ≠ b :=
  fun e => h (congrArg (fun s => chAt s k) e)

lemma optsome_ne {c d : Char} (h : ¬ c = d) : (some c : Option Char) = some d → False :=
  fun e => h (Option.some.inj e)

lemma append_left_inj (p : String) {a b : String} (h : p ++ a = p ++ b) : a = b := by
  have h2 : p.data ++ a.data = p.data ++ b.data := congrArg String.data h
  have h3 : a.data = b.data := List.append_cancel_left h2
  cases a with
  | mk la =>
    cases b with
    | mk lb => simp only [] at h3; rw [h3]

/-- The first character of the message, when present, belongs to `cs`. -/
def headIn (e : String) (cs : List Char) : Prop :=
  ∀ c, headCh e = some c → c ∈ cs

lemma headIn_of_eq {e : String} {c : Char} {cs : List Char}
    (h : headCh e = some c) (hm : c ∈ cs) : headIn e cs := by
  intro c hc
  rw [h] at hc
  cases hc
  exact hm

lemma headIn_mono {e : String} {cs cs' : List Char}
    (h : headIn e cs) (hsub : ∀ c ∈ cs, c ∈ cs') : headIn e cs' :=
  fun c hc => hsub c (h c hc)

lemma count_eq_zero_of_headIn {l : List String} {cs : List Char} {m : String} {c : Char}
    (hm : headCh m = some c) (hc : c ∉ cs) (h : ∀ e ∈ l, headIn e cs) :
    l.count m = 0 := by
  rw [List.count_eq_zero]
  intro hmem
  exact hc (h m hmem c hm)

lemma count_cmap_zero {f : α → List String} {m : String} (l : List α)
    (h : ∀ a ∈ l, (f a).count m = 0) : (cmap f l).count m = 0 := by
  induction l with
  | nil => rfl
  | cons a t ih =>
    simp only [cmap, List.count_append]
    rw [h a (by simp), ih (fun x hx => h x (List.mem_cons_of_mem a hx))]

/-! Head characters of each validator section's messages. -/

lemma reqEmit_headIn (data : Yaml) (fp : String) :
    ∀ e ∈ reqEmit data fp, headIn e ['M', 'E'] := by
  intro e he
  unfold reqEmit at he
  split at he
  · rw [List.mem_singleton] at he
    subst he
    exact headIn_of_eq (c := 'M') rfl (by decide)
  · split at he
    · rw [List.mem_singleton] at he
      subst he
      exact headIn_of_eq (c := 'E') rfl (by decide)
    · simp at he

lemma requiredFieldErrors_headIn (data : Yaml) :
    ∀ e ∈ requiredFieldErrors data, headIn e ['M', 'E'] := by
  unfold requiredFieldErrors
  generalize REQUIRED_FIELDS = L
  induction L with
  | nil => intro e he; simp [cmap] at he
  | cons a t ih =>
    intro e he
    simp only [cmap, List.mem_append] at he
    rcases he with he | he
    · exact reqEmit_headIn data a e he
    · exact ih e he

lemma operationModeErrors_headIn (op : List (String × Yaml)) :
    ∀ e ∈ operationModeErrors op, headIn e ['I'] := by
  intro e he
  unfold operationModeErrors at he
  split at he
  · simp at he
  · split at he
    · simp at he
    · rw [List.mem_singleton] at he
      subst he
      exact headIn_of_eq (c := 'I') rfl (by decide)

lemma capabilityErrors_headIn (op : List (String × Yaml)) :
    ∀ e ∈ capabilityErrors op, headIn e ['I'] := by
  intro e he
  unfold capabilityErrors at he
  split at he
  · simp at he
  · split at he
    · simp at he
    · rw [List.mem_singleton] at he
      subst he
      exact headIn_of_eq (c := 'I') rfl (by decide)

lemma durationTypeErrors_headIn (d : List (String × Yaml)) :
    ∀ e ∈ durationTypeErrors d, headIn e ['I'] := by
  intro e he
  unfold durationTypeErrors at he
  split at he
  · simp at he
  · split at he
    · simp at he
    · rw [List.mem_singleton] at he
      subst he
      exact headIn_of_eq (c := 'I') rfl (by decide)

lemma durationExpectedErrors_headIn (d : List (String × Yaml)) :
    ∀ e ∈ durationExpectedErrors d, headIn e ['I', 'd'] := by
  intro e he
  unfold durationExpectedErrors at he
  split at he
  · simp at he
  · split at he
    · rw [List.mem_singleton] at he
      subst he
      exact headIn_of_eq (c := 'd') rfl (by decide)
    · split at he
      · rw [List.mem_singleton] at he
        subst he
        exact headIn_of_eq (c := 'd') rfl (by decide)
      · simp at he

lemma durationTimeoutErrors_headIn (d : List (String × Yaml)) :
    ∀ e ∈ durationTimeoutErrors d, headIn e ['I', 'd'] := by
  intro e he
  unfold durationTimeoutErrors at he
  split at he
  · simp at he
  · split at he
    · rw [List.mem_singleton] at he
      subst he
      exact headIn_of_eq (c := 'd') rfl (by decide)
    · split at he
      · rw [List.mem_singleton] at he
        subst he
        exact headIn_of_eq (c := 'd') rfl (by decide)
      · simp at he

lemma durationOrderErrors_headIn (d : List (String × Yaml)) :
    ∀ e ∈ durationOrderErrors d, headIn e ['I', 'd'] := by
  intro e he
  unfold durationOrderErrors at he
  split at he
  · split at he
    · split at he
      · rw [List.mem_singleton] at he
        subst he
        exact headIn_of_eq (c := 'd') rfl (by decide)
      · simp at he
    · simp at he
  · simp at he

lemma durationSection_headIn (d : Yaml) (es : List String)
    (h : durationSection d = .ok es) : ∀ e ∈ es, headIn e ['I', 'd'] := by
  unfold durationSection at h
  split at h
  · cases h
    intro e he
    rcases List.mem_append.mp he with he | he
    · rcases List.mem_append.mp he with he | he
      · rcases List.mem_append.mp he with he | he
        · exact headIn_mono (durationTypeErrors_headIn _ e he) (by decide)
        · exact durationExpectedErrors_headIn _ e he
      · exact durationTimeoutErrors_headIn _ e he
    · exact durationOrderErrors_headIn _ e he
  · split at h
    · cases h
    · cases h
      intro e he
      simp at he

lemma templateSection_headIn (op : List (String × Yaml)) (es : List String)
    (h : templateSection op = .ok es) : ∀ e ∈ es, headIn e ['I'] := by
  unfold templateSection at h
  split at h
  · cases h; intro e he; simp at he
  · split at h
    · split at h
      · cases h; intro e he; simp at he
      · split at h
        · cases h; intro e he; simp at he
        · cases h
          intro e he
          rw [List.mem_singleton] at he
          subst he
          exact headIn_of_eq (c := 'I') rfl (by decide)
    · split at h
      · cases h
      · cases h
      · cases h; intro e he; simp at he

lemma optionalBooleanErrors_headIn (data : Yaml) :
    ∀ e ∈ optionalBooleanErrors data, headIn e ['v', 'i', 'r'] := by
  intro e he
  unfold optionalBooleanErrors at he
  simp only [OPTIONAL_BOOLEAN_FIELDS, cmap, List.append_nil, List.mem_append] at he
  rcases he with he | he | he
  · split at he
    · simp at he
    · simp at he
    · simp at he
    · rw [List.mem_singleton] at he
      subst he
      exact headIn_of_eq (c := 'v') rfl (by decide)
  · split at he
    · simp at he
    · simp at he
    · simp at he
    · rw [List.mem_singleton] at he
      subst he
      exact headIn_of_eq (c := 'i') rfl (by decide)
  · split at he
    · simp at he
    · simp at he
    · simp at he
    · rw [List.mem_singleton] at he
      subst he
      exact headIn_of_eq (c := 'r') rfl (by decide)

lemma paramItemErrors_headIn (ptype : String) (i : Nat) (param : Yaml) :
    ∀ e ∈ paramItemErrors ptype i param, headIn e ['o'] := by
  intro e he
  unfold paramItemErrors at he
  split at he
  · rcases List.mem_append.mp he with he | he
    · rcases List.mem_append.mp he with he | he
      · split at he
        · simp at he
        · rw [List.mem_singleton] at he
          subst he
          exact headIn_of_eq (c := 'o') rfl (by decide)
      · split at he
        · simp at he
        · rw [List.mem_singleton] at he
          subst he
          exact headIn_of_eq (c := 'o') rfl (by decide)
    · split at he
      · simp at he
      · rw [List.mem_singleton] at he
        subst he
        exact headIn_of_eq (c := 'o') rfl (by decide)
  · rw [List.mem_singleton] at he
    subst he
    exact headIn_of_eq (c := 'o') rfl (by decide)

lemma paramListErrors_headIn (ptype : String) :
    ∀ (i : Nat) (xs : List Yaml), ∀ e ∈ paramListErrors ptype i xs, headIn e ['o'] := by
  intro i xs
  induction xs generalizing i with
  | nil => intro e he; simp [paramListErrors] at he
  | cons p rest ih =>
    intro e he
    rcases List.mem_append.mp he with he | he
    · exact paramItemErrors_headIn ptype i p e he
    · exact ih (i + 1) e he

lemma paramTypeErrors_headIn (params : List (String × Yaml)) (ptype : String) :
    ∀ e ∈ paramTypeErrors params ptype, headIn e ['o'] := by
  intro e he
  unfold paramTypeErrors at he
  split at he
  · simp at he
  · exact paramListErrors_headIn ptype 0 _ e he
  · rw [List.mem_singleton] at he
    subst he
    exact headIn_of_eq (c := 'o') rfl (by decide)

lemma parametersSection_headIn (op : List (String × Yaml)) :
    ∀ e ∈ parametersSection op, headIn e ['o'] := by
  intro e he
  unfold parametersSection at he
  split at he
  · simp at he
  · rcases List.mem_append.mp he with he | he
    · rcases List.mem_append.mp he with he | he
      · split at he
        · simp at he
        · rw [List.mem_singleton] at he
          subst he
          exact headIn_of_eq (c := 'o') rfl (by decide)
      · exact paramTypeErrors_headIn _ _ e he
    · exact paramTypeErrors_headIn _ _ e he
  · rw [List.mem_singleton] at he
    subst he
    exact headIn_of_eq (c := 'o') rfl (by decide)

lemma rollbackStepErrors_headIn :
    ∀ (i : Nat) (steps : List Yaml), ∀ e ∈ rollbackStepErrors i steps, headIn e ['o'] := by
  intro i steps
  induction steps generalizing i with
  | nil => intro e he; simp [rollbackStepErrors] at he
  | cons s rest ih =>
    intro e he
    rcases List.mem_append.mp he with he | he
    · split at he
      · rcases List.mem_append.mp he with he | he
        · split at he
          · simp at he
          · rw [List.mem_singleton] at he
            subst he
            exact headIn_of_eq (c := 'o') rfl (by decide)
        · split at he
          · simp at he
          · rw [List.mem_singleton] at he
            subst he
            exact headIn_of_eq (c := 'o') rfl (by decide)
      · rw [List.mem_singleton] at he
        subst he
        exact headIn_of_eq (c := 'o') rfl (by decide)
    · exact ih (i + 1) e he

lemma rollbackSection_headIn (op : List (String × Yaml)) :
    ∀ e ∈ rollbackSection op, headIn e ['o'] := by
  intro e he
  unfold rollbackSection at he
  split at he
  · simp at he
  · split at he
    · split at he
      · split at he
        · rw [List.mem_singleton] at he
          subst he
          exact headIn_of_eq (c := 'o') rfl (by decide)
        · exact rollbackStepErrors_headIn 0 _ e he
        · rw [List.mem_singleton] at he
          subst he
          exact headIn_of_eq (c := 'o') rfl (by decide)
      · simp at he
    · simp at he
  · rw [List.mem_singleton] at he
    subst he
    exact headIn_of_eq (c := 'o') rfl (by decide)

lemma checkListKey_headIn (ves : List (String × Yaml)) (k : String) :
    ∀ e ∈ checkListKey ves k, headIn e ['o'] := by
  intro e he
  unfold checkListKey at he
  split at he
  · simp at he
  · simp at he
  · rw [List.mem_singleton] at he
    subst he
    exact headIn_of_eq (c := 'o') rfl (by decide)

lemma validationSection_headIn (op : List (String × Yaml)) :
    ∀ e ∈ validationSection op, headIn e ['o'] := by
  intro e he
  unfold validationSection at he
  split at he
  · simp at he
  · rcases List.mem_append.mp he with he | he
    · rcases List.mem_append.mp he with he | he
      · exact checkListKey_headIn _ _ e he
      · exact checkListKey_headIn _ _ e he
    · exact checkListKey_headIn _ _ e he
  · rw [List.mem_singleton] at he
    subst he
    exact headIn_of_eq (c := 'o') rfl (by decide)

lemma catSections_headIn {cs : List Char} (hU : 'U' ∈ cs) :
    ∀ (l : List (Except String (List String))),
      (∀ es, Except.ok es ∈ l → ∀ e ∈ es, headIn e cs) →
      ∀ e ∈ catSections l, headIn e cs := by
  intro l
  induction l with
  | nil => intro _ e he; simp [catSections] at he
  | cons x rest ih =>
    intro h e he
    match x with
    | .ok es =>
      simp only [catSections] at he
      rcases List.mem_append.mp he with he | he
      · exact h es (by simp) e he
      · exact ih (fun es2 hes2 => h es2 (List.mem_cons_of_mem _ hes2)) e he
    | .error m =>
      simp only [catSections] at he
      rw [List.mem_singleton] at he
      subst he
      exact headIn_of_eq (c := 'U') rfl hU

lemma dictOpErrors_headIn (data : Yaml) (oes : List (String × Yaml)) :
    ∀ e ∈ dictOpErrors data oes, headIn e ['I', 'd', 'v', 'i', 'r', 'o', 'U'] := by
  unfold dictOpErrors
  apply catSections_headIn (by decide)
  intro es hes e he
  simp only [List.mem_cons, List.not_mem_nil, or_false] at hes
  rcases hes with h | h | h | h | h | h | h | h
  · cases h
    exact headIn_mono (operationModeErrors_headIn oes e he) (by decide)
  · cases h
    exact headIn_mono (capabilityErrors_headIn oes e he) (by decide)
  · rcases hd : pyGet oes "duration" with _ | d
    · rw [hd] at h
      cases h
      simp at he
    · rw [hd] at h
      exact headIn_mono (durationSection_headIn d es h.symm e he) (by decide)
  · exact headIn_mono (templateSection_headIn oes es h.symm e he) (by decide)
  · cases h
    exact headIn_mono (optionalBooleanErrors_headIn data e he) (by decide)
  · cases h
    exact headIn_mono (parametersSection_headIn oes e he) (by decide)
  · cases h
    exact headIn_mono (rollbackSection_headIn oes e he) (by decide)
  · cases h
    exact headIn_mono (validationSection_headIn oes e he) (by decide)

lemma nonDictOpErrors_headIn (data op : Yaml) :
    ∀ e ∈ nonDictOpErrors data op, headIn e ['v', 'i', 'r', 'U'] := by
  intro e he
  unfold nonDictOpErrors at he
  split at he
  · rw [List.mem_singleton] at he
    subst he
    exact headIn_of_eq (c := 'U') rfl (by decide)
  · rcases List.mem_append.mp he with he | he
    · exact headIn_mono (optionalBooleanErrors_headIn data e he) (by decide)
    · split at he
      · rw [List.mem_singleton] at he
        subst he
        exact headIn_of_eq (c := 'U') rfl (by decide)
      · simp at he

/-! Counting lemmas for the required-field section. -/

lemma count_singleton_of_ne {x m : String} (h : ¬ x = m) : List.count m [x] = 0 := by
  rw [List.count_eq_zero]
  intro hm
  rw [List.mem_singleton] at hm
  exact h hm.symm

lemma count_singleton_self (m : String) : List.count m [m] = 1 := by
  simp

lemma count_cmap_one {f : String → List String} {m : String} :
    ∀ (L : List String) (fp : String), fp ∈ L → L.Nodup →
      (f fp).count m = 1 → (∀ p, p ≠ fp → (f p).count m = 0) →
      (cmap f L).count m = 1 := by
  intro L
  induction L with
  | nil => intro fp hfp; cases hfp
  | cons a t ih =>
    intro fp hfp hnd h1 h0
    simp only [cmap, List.count_append]
    rcases List.mem_cons.mp hfp with rfl | hfp'
    · rw [h1, count_cmap_zero]
      intro p hp
      apply h0
      intro hpe
      subst hpe
      exact (List.nodup_cons.mp hnd).1 hp
    · rw [h0 a, ih fp hfp' (List.nodup_cons.mp hnd).2 h1 h0]
      intro hae
      subst hae
      exact (List.nodup_cons.mp hnd).1 hfp'

lemma reqEmit_count_missing_self (data : Yaml) (fp : String)
    (hmiss : (get_nested_value data fp).2 = false) :
    (reqEmit data fp).count ("Missing required field: " ++ fp) = 1 := by
  unfold reqEmit
  rw [hmiss]
  simp only [Bool.not_false, if_true]
  exact count_singleton_self _

lemma reqEmit_count_missing_other (data : Yaml) {p fp : String} (hne : p ≠ fp) :
    (reqEmit data p).count ("Missing required field: " ++ fp) = 0 := by
  unfold reqEmit
  split
  · exact count_singleton_of_ne (fun h => hne (append_left_inj _ h))
  · split
    · exact count_singleton_of_ne (ne_of_chAt 0 (optsome_ne (by decide)))
    · rfl

lemma reqEmit_count_empty_self (data : Yaml) (fp : String) (v : Yaml)
    (hex : get_nested_value data fp = (v, true))
    (hblank : isNoneY v = true ∨ isBlankString v = true) :
    (reqEmit data fp).count ("Empty value for required field: " ++ fp) = 1 := by
  have hb : (isNoneY v || isBlankString v) = true := by
    rcases hblank with hb | hb <;> simp [hb]
  unfold reqEmit
  rw [hex]
  simp only [hb, Bool.not_true, Bool.false_eq_true, if_false, if_true]
  exact count_singleton_self _

lemma reqEmit_count_empty_other (data : Yaml) {p fp : String} (hne : p ≠ fp) :
    (reqEmit data p).count ("Empty value for required field: " ++ fp) = 0 := by
  unfold reqEmit
  split
  · exact count_singleton_of_ne (ne_of_chAt 0 (optsome_ne (by decide)))
  · split
    · exact count_singleton_of_ne (fun h => hne (append_left_inj _ h))
    · rfl

/-! Decomposition of `validateData` and counting across sections. -/

lemma ne_of_headCh {a b : String} {c c' : Char}
    (ha : headCh a = some c) (hb : headCh b = some c') (hcc : ¬ c = c') : a ≠ b := by
  intro e
  subst e
  rw [ha] at hb
  exact hcc (Option.some.inj hb)

lemma validateData_eq_dict_op (des : List (String × Yaml)) (oes : List (String × Yaml))
    (ht : pyTruthy (.dict des) = true)
    (hop : pyGet des "operation" = some (.dict oes)) :
    validateData (.dict des) = requiredFieldErrors (.dict des) ++ dictOpErrors (.dict des) oes := by
  simp only [validateData, ht, hop, Bool.not_true, Bool.false_eq_true, if_false]

lemma count_catSections_ok (x : List String) (rest : List (Except String (List String)))
    (m : String) :
    (catSections (.ok x :: rest)).count m = x.count m + (catSections rest).count m := by
  simp [catSections, List.count_append]

lemma count_unexpected_zero {m : String} {c : Char} (hm : headCh m = some c)
    (hc : ¬ c = 'U') (x : String) :
    List.count m ["Unexpected error: " ++ x] = 0 :=
  count_singleton_of_ne (ne_of_headCh (a := "Unexpected error: " ++ x) rfl hm
    (fun e => hc (e.symm)))

lemma validateData_count_req (des : List (String × Yaml))
    (ht : pyTruthy (.dict des) = true)
    {m : String} {c : Char} (hm : headCh m = some c) (hME : c = 'M' ∨ c = 'E') :
    (validateData (.dict des)).count m = (requiredFieldErrors (.dict des)).count m := by
  have hnot : c ∉ (['I', 'd', 'v', 'i', 'r', 'o', 'U'] : List Char) := by
    rcases hME with rfl | rfl <;> decide
  have hnot2 : c ∉ (['v', 'i', 'r', 'U'] : List Char) := by
    rcases hME with rfl | rfl <;> decide
  simp only [validateData, ht, Bool.not_true, Bool.false_eq_true, if_false]
  rcases hop : pyGet des "operation" with _ | v
  · rw [List.count_append, count_eq_zero_of_headIn hm hnot (dictOpErrors_headIn _ _),
        Nat.add_zero]
  · cases v with
    | dict oes =>
      rw [List.count_append, count_eq_zero_of_headIn hm hnot (dictOpErrors_headIn _ _),
          Nat.add_zero]
    | null =>
      rw [List.count_append, count_eq_zero_of_headIn hm hnot2 (nonDictOpErrors_headIn _ _),
          Nat.add_zero]
    | bool b =>
      rw [List.count_append, count_eq_zero_of_headIn hm hnot2 (nonDictOpErrors_headIn _ _),
          Nat.add_zero]
    | int n =>
      rw [List.count_append, count_eq_zero_of_headIn hm hnot2 (nonDictOpErrors_headIn _ _),
          Nat.add_zero]
    | str s =>
      rw [List.count_append, count_eq_zero_of_headIn hm hnot2 (nonDictOpErrors_headIn _ _),
          Nat.add_zero]
    | list xs =>
      rw [List.count_append, count_eq_zero_of_headIn hm hnot2 (nonDictOpErrors_headIn _ _),
          Nat.add_zero]

lemma requiredFieldErrors_count_missing (data : Yaml) (fp : String)
    (hfp : fp ∈ REQUIRED_FIELDS) (hmiss : (get_nested_value data fp).2 = false) :
    (requiredFieldErrors data).count ("Missing required field: " ++ fp) = 1 :=
  count_cmap_one REQUIRED_FIELDS fp hfp (by decide)
    (reqEmit_count_missing_self data fp hmiss)
    (fun _ hp => reqEmit_count_missing_other data hp)

lemma requiredFieldErrors_count_empty (data : Yaml) (fp : String) (v : Yaml)
    (hfp : fp ∈ REQUIRED_FIELDS) (hex : get_nested_value data fp = (v, true))
    (hblank : isNoneY v = true ∨ isBlankString v = true) :
    (requiredFieldErrors data).count ("Empty value for required field: " ++ fp) = 1 :=
  count_cmap_one REQUIRED_FIELDS fp hfp (by decide)
    (reqEmit_count_empty_self data fp v hex hblank)
    (fun _ hp => reqEmit_count_empty_other data hp)

/-- Claim C4: the validator has exactly 11 required dotted field paths; for a
truthy mapping, a missing path yields exactly one "Missing required field"
violation naming it (whatever the other fields hold), and a path present with
`None` or a blank string yields exactly one "Empty value for required field"
violation naming it. -/
theorem C4_required_field_messages (des : List (String × Yaml)) (fp : String)
    (ht : pyTruthy (.dict des) = true) (hfp : fp ∈ REQUIRED_FIELDS) :
    REQUIRED_FIELDS.length = 11 ∧
    ((get_nested_value (.dict des) fp).2 = false →
      (validateData (.dict des)).count ("Missing required field: " ++ fp) = 1) ∧
    (∀ v, get_nested_value (.dict des) fp = (v, true) →
      isNoneY v = true ∨ isBlankString v = true →
      (validateData (.dict des)).count ("Empty value for required field: " ++ fp) = 1) := by
  refine ⟨by decide, ?_, ?_⟩
  · intro hmiss
    rw [validateData_count_req des ht (m := "Missing required field: " ++ fp) (c := 'M')
          rfl (Or.inl rfl)]
    exact requiredFieldErrors_count_missing _ fp hfp hmiss
  · intro v hex hblank
    rw [validateData_count_req des ht (m := "Empty value for required field: " ++ fp)
          (c := 'E') rfl (Or.inr rfl)]
    exact requiredFieldErrors_count_empty _ fp v hfp hex hblank

theorem C4_witness :
    (validateData (.dict [("x", .int 1)])).count
      ("Missing required field: " ++ "operation.id") = 1 ∧
    (validateData (.dict [("operation", .dict [("id", .str " ")])])).count
      ("Empty value for required field: " ++ "operation.id") = 1 :=
  ⟨(C4_required_field_messages [("x", .int 1)] "operation.id" rfl (by decide)).2.1 rfl,
   (C4_required_field_messages [("operation", .dict [("id", .str " ")])] "operation.id"
      rfl (by decide)).2.2 (.str " ") rfl (Or.inr rfl)⟩

/-! Membership of enum violations in the validator output (claim C3). -/

lemma mem_catSections_ok_head {x : List String} {rest : List (Except String (List String))}
    {m : String} (hm : m ∈ x) : m ∈ catSections (.ok x :: rest) :=
  List.mem_append_left _ hm

lemma mem_catSections_ok_tail {x : List String} {rest : List (Except String (List String))}
    {m : String} (hm : m ∈ catSections rest) : m ∈ catSections (.ok x :: rest) :=
  List.mem_append_right _ hm

/-- Claim C3 (amended): the enum rule checks `operation_mode`, `capability`,
`duration.type` and `template.type` against fixed sets of 13, 7, 4 and 6
members respectively, and an invalid present value yields a violation naming
the value and listing the whole allowed set. -/
theorem C3_enum_membership (des oes : List (String × Yaml))
    (ht : pyTruthy (.dict des) = true)
    (hop : pyGet des "operation" = some (.dict oes)) :
    VALID_OPERATION_MODES.length = 13 ∧ VALID_CAPABILITIES.length = 7 ∧
    VALID_DURATION_TYPES.length = 4 ∧ VALID_TEMPLATE_TYPES.length = 6 ∧
    (∀ mode, pyGet oes "operation_mode" = some mode →
      strElem mode VALID_OPERATION_MODES = false →
      ("Invalid operation_mode: '" ++ pyStr mode ++ "' (must be one of: " ++
        String.intercalate ", " VALID_OPERATION_MODES ++ ")") ∈ validateData (.dict des)) ∧
    (∀ cap, pyGet oes "capability" = some cap →
      strElem cap VALID_CAPABILITIES = false →
      ("Invalid capability: '" ++ pyStr cap ++ "' (must be one of: " ++
        String.intercalate ", " VALID_CAPABILITIES ++ ")") ∈ validateData (.dict des)) ∧
    (∀ dur dtype, pyGet oes "duration" = some (.dict dur) →
      pyGet dur "type" = some dtype →
      strElem dtype VALID_DURATION_TYPES = false →
      ("Invalid duration.type: '" ++ pyStr dtype ++ "' (must be one of: " ++
        String.intercalate ", " VALID_DURATION_TYPES ++ ")") ∈ validateData (.dict des)) ∧
    (∀ tes ttype, pyGet oes "template" = some (.dict tes) →
      pyGet tes "type" = some ttype →
      strElem ttype VALID_TEMPLATE_TYPES = false →
      (pyGet oes "duration" = none ∨ ∃ dd, pyGet oes "duration" = some (.dict dd)) →
      ("Invalid template.type: '" ++ pyStr ttype ++ "' (must be one of: " ++
        String.intercalate ", " VALID_TEMPLATE_TYPES ++ ")") ∈ validateData (.dict des)) := by
  refine ⟨by decide, by decide, by decide, by decide, ?_, ?_, ?_, ?_⟩
  · intro mode hmode hinv
    rw [validateData_eq_dict_op des oes ht hop]
    apply List.mem_append_right
    unfold dictOpErrors
    apply mem_catSections_ok_head
    simp [operationModeErrors, hmode, hinv]
  · intro cap hcap hinv
    rw [validateData_eq_dict_op des oes ht hop]
    apply List.mem_append_right
    unfold dictOpErrors
    apply mem_catSections_ok_tail
    apply mem_catSections_ok_head
    simp [capabilityErrors, hcap, hinv]
  · intro dur dtype hdur htype hinv
    rw [validateData_eq_dict_op des oes ht hop]
    apply List.mem_append_right
    unfold dictOpErrors
    apply mem_catSections_ok_tail
    apply mem_catSections_ok_tail
    rw [hdur]
    apply mem_catSections_ok_head
    apply List.mem_append_left
    apply List.mem_append_left
    apply List.mem_append_left
    simp [durationTypeErrors, htype, hinv]
  · intro tes ttype htmpl htype hinv hdurok
    rw [validateData_eq_dict_op des oes ht hop]
    apply List.mem_append_right
    unfold dictOpErrors
    apply mem_catSections_ok_tail
    apply mem_catSections_ok_tail
    rcases hdurok with hdur | ⟨dd, hdur⟩
    · rw [hdur]
      apply mem_catSections_ok_tail
      have hts : templateSection oes =
          .ok ["Invalid template.type: '" ++ pyStr ttype ++ "' (must be one of: " ++
            String.intercalate ", " VALID_TEMPLATE_TYPES ++ ")"] := by
        simp [templateSection, htmpl, htype, hinv]
      rw [hts]
      apply mem_catSections_ok_head
      simp
    · rw [hdur]
      apply mem_catSections_ok_tail
      have hts : templateSection oes =
          .ok ["Invalid template.type: '" ++ pyStr ttype ++ "' (must be one of: " ++
            String.intercalate ", " VALID_TEMPLATE_TYPES ++ ")"] := by
        simp [templateSection, htmpl, htype, hinv]
      rw [hts]
      apply mem_catSections_ok_head
      simp

/-- Claim C3 counterexample: the baseline allowed set for `operation_mode`
has 13 members, not the 16 the claim states. -/
theorem C3_counterexample : VALID_OPERATION_MODES.length ≠ 16 := by decide

/-- Concrete operation mapping with all four enum fields invalid. -/
def exC3op : List (String × Yaml) := [
  ("operation_mode", .str "bogus"),
  ("capability", .str "bogus"),
  ("duration", .dict [("type", .str "bogus")]),
  ("template", .dict [("type", .str "bogus")])]

/-- Concrete document for the C3 witness. -/
def exC3 : List (String × Yaml) := [("operation", .dict exC3op)]

theorem C3_witness :
    VALID_OPERATION_MODES.length = 13 ∧
    ("Invalid operation_mode: '" ++ pyStr (.str "bogus") ++ "' (must be one of: " ++
      String.intercalate ", " VALID_OPERATION_MODES ++ ")") ∈ validateData (.dict exC3) ∧
    ("Invalid capability: '" ++ pyStr (.str "bogus") ++ "' (must be one of: " ++
      String.intercalate ", " VALID_CAPABILITIES ++ ")") ∈ validateData (.dict exC3) ∧
    ("Invalid duration.type: '" ++ pyStr (.str "bogus") ++ "' (must be one of: " ++
      String.intercalate ", " VALID_DURATION_TYPES ++ ")") ∈ validateData (.dict exC3) ∧
    ("Invalid template.type: '" ++ pyStr (.str "bogus") ++ "' (must be one of: " ++
      String.intercalate ", " VALID_TEMPLATE_TYPES ++ ")") ∈ validateData (.dict exC3) :=
  ⟨(C3_enum_membership exC3 exC3op rfl rfl).1,
   (C3_enum_membership exC3 exC3op rfl rfl).2.2.2.2.1 (.str "bogus") rfl rfl,
   (C3_enum_membership exC3 exC3op rfl rfl).2.2.2.2.2.1 (.str "bogus") rfl rfl,
   (C3_enum_membership exC3 exC3op rfl rfl).2.2.2.2.2.2.1 [("type", .str "bogus")]
     (.str "bogus") rfl rfl rfl,
   (C3_enum_membership exC3 exC3op rfl rfl).2.2.2.2.2.2.2 [("type", .str "bogus")]
     (.str "bogus") rfl rfl rfl (Or.inr ⟨[("type", .str "bogus")], rfl⟩)⟩

/-! Counting duration-section messages inside the whole validator output. -/

lemma dictOpErrors_count_d (data : Yaml) (oes dur : List (String × Yaml))
    (hdur : pyGet oes "duration" = some (.dict dur)) {m : String}
    (hm : headCh m = some 'd') :
    (dictOpErrors data oes).count m =
      (durationTypeErrors dur ++ durationExpectedErrors dur ++
       durationTimeoutErrors dur ++ durationOrderErrors dur).count m := by
  have hmode : (operationModeErrors oes).count m = 0 :=
    count_eq_zero_of_headIn hm (by decide) (operationModeErrors_headIn oes)
  have hcap : (capabilityErrors oes).count m = 0 :=
    count_eq_zero_of_headIn hm (by decide) (capabilityErrors_headIn oes)
  have htail : (catSections [templateSection oes, .ok (optionalBooleanErrors data),
      .ok (parametersSection oes), .ok (rollbackSection oes),
      .ok (validationSection oes)]).count m = 0 := by
    rcases htm : templateSection oes with e | ts
    · simp only [catSections]
      exact count_unexpected_zero hm (by decide) e
    · simp only [catSections, List.count_append]
      rw [count_eq_zero_of_headIn hm (by decide) (templateSection_headIn oes ts htm),
          count_eq_zero_of_headIn hm (by decide) (optionalBooleanErrors_headIn data),
          count_eq_zero_of_headIn hm (by decide) (parametersSection_headIn oes),
          count_eq_zero_of_headIn hm (by decide) (rollbackSection_headIn oes),
          count_eq_zero_of_headIn hm (by decide) (validationSection_headIn oes)]
      simp
  simp only [dictOpErrors, hdur, durationSection, catSections, List.count_append]
  rw [hmode, hcap]
  simp only [catSections, List.count_append] at htail
  omega

lemma validateData_count_dur (des oes dur : List (String × Yaml))
    (ht : pyTruthy (.dict des) = true)
    (hop : pyGet des "operation" = some (.dict oes))
    (hdur : pyGet oes "duration" = some (.dict dur)) {m : String}
    (hm : headCh m = some 'd') :
    (validateData (.dict des)).count m =
      (durationTypeErrors dur ++ durationExpectedErrors dur ++
       durationTimeoutErrors dur ++ durationOrderErrors dur).count m := by
  rw [validateData_eq_dict_op des oes ht hop, List.count_append,
      count_eq_zero_of_headIn hm (by decide) (requiredFieldErrors_headIn _),
      Nat.zero_add, dictOpErrors_count_d (.dict des) oes dur hdur hm]

lemma mem_validateData_durPayload (des oes dur : List (String × Yaml))
    (ht : pyTruthy (.dict des) = true)
    (hop : pyGet des "operation" = some (.dict oes))
    (hdur : pyGet oes "duration" = some (.dict dur)) {m : String}
    (hmem : m ∈ durationTypeErrors dur ++ durationExpectedErrors dur ++
      durationTimeoutErrors dur ++ durationOrderErrors dur) :
    m ∈ validateData (.dict des) := by
  rw [validateData_eq_dict_op des oes ht hop]
  apply List.mem_append_right
  unfold dictOpErrors
  apply mem_catSections_ok_tail
  apply mem_catSections_ok_tail
  rw [hdur]
  exact mem_catSections_ok_head hmem

lemma durExpected_count_tchar (dur : List (String × Yaml)) {m : String}
    (h9 : chAt m 9 = some 't') : (durationExpectedErrors dur).count m = 0 := by
  unfold durationExpectedErrors
  split
  · rfl
  · split
    · refine count_singleton_of_ne (ne_of_chAt 9 ?_)
      intro hc
      rw [h9] at hc
      exact optsome_ne (by decide) hc
    · split
      · refine count_singleton_of_ne (ne_of_chAt 9 ?_)
        intro hc
        rw [h9] at hc
        exact optsome_ne (by decide) hc
      · rfl

lemma durTimeout_count_paren (dur : List (String × Yaml)) {m : String}
    (h17 : chAt m 17 = some '(') : (durationTimeoutErrors dur).count m = 0 := by
  unfold durationTimeoutErrors
  split
  · rfl
  · split
    · refine count_singleton_of_ne (ne_of_chAt 17 ?_)
      intro hc
      rw [h17] at hc
      exact optsome_ne (by decide) hc
    · split
      · refine count_singleton_of_ne (ne_of_chAt 17 ?_)
        intro hc
        rw [h17] at hc
        exact optsome_ne (by decide) hc
      · rfl

/-- Claim C6: duration type, positivity and ordering rules of the validator. -/
theorem C6_duration_numeric_rules (des oes dur : List (String × Yaml))
    (ht : pyTruthy (.dict des) = true)
    (hop : pyGet des "operation" = some (.dict oes))
    (hdur : pyGet oes "duration" = some (.dict dur)) :
    (∀ v, pyGet dur "expected" = some v → pyIsInt v = false →
      ("duration.expected must be integer, got: " ++ pyTypeName v) ∈
        validateData (.dict des)) ∧
    (∀ v, pyGet dur "timeout" = some v → pyIsInt v = false →
      ("duration.timeout must be integer, got: " ++ pyTypeName v) ∈
        validateData (.dict des)) ∧
    (∀ n : Int, pyGet dur "expected" = some (.int n) → n ≤ 0 →
      ("duration.expected must be positive, got: " ++ pyStr (.int n)) ∈
        validateData (.dict des)) ∧
    (∀ n : Int, pyGet dur "timeout" = some (.int n) → n ≤ 0 →
      ("duration.timeout must be positive, got: " ++ pyStr (.int n)) ∈
        validateData (.dict des)) ∧
    (∀ a b : Int, pyGet dur "expected" = some (.int a) →
      pyGet dur "timeout" = some (.int b) → b < a →
      (validateData (.dict des)).count ("duration.timeout (" ++ pyStr (.int b) ++
        ") should be >= duration.expected (" ++ pyStr (.int a) ++ ")") = 1) ∧
    (∀ a b : Int, pyGet dur "expected" = some (.int a) →
      pyGet dur "timeout" = some (.int b) → a ≤ b →
      ("duration.timeout (" ++ pyStr (.int b) ++
        ") should be >= duration.expected (" ++ pyStr (.int a) ++ ")") ∉
        validateData (.dict des)) := by
  refine ⟨?_, ?_, ?_, ?_, ?_, ?_⟩
  · intro v hv hint
    apply mem_validateData_durPayload des oes dur ht hop hdur
    apply List.mem_append_left
    apply List.mem_append_left
    apply List.mem_append_right
    simp [durationExpectedErrors, hv, hint]
  · intro v hv hint
    apply mem_validateData_durPayload des oes dur ht hop hdur
    apply List.mem_append_left
    apply List.mem_append_right
    simp [durationTimeoutErrors, hv, hint]
  · intro n hv hn
    apply mem_validateData_durPayload des oes dur ht hop hdur
    apply List.mem_append_left
    apply List.mem_append_left
    apply List.mem_append_right
    simp only [durationExpectedErrors, hv, pyIsInt, Bool.not_true, Bool.false_eq_true,
      if_false, pyIntVal]
    rw [if_pos hn]
    simp
  · intro n hv hn
    apply mem_validateData_durPayload des oes dur ht hop hdur
    apply List.mem_append_left
    apply List.mem_append_right
    simp only [durationTimeoutErrors, hv, pyIsInt, Bool.not_true, Bool.false_eq_true,
      if_false, pyIntVal]
    rw [if_pos hn]
    simp
  · intro a b ha hb hlt
    have hm : headCh ("duration.timeout (" ++ pyStr (.int b) ++
        ") should be >= duration.expected (" ++ pyStr (.int a) ++ ")") = some 'd' := rfl
    have h9 : chAt ("duration.timeout (" ++ pyStr (.int b) ++
        ") should be >= duration.expected (" ++ pyStr (.int a) ++ ")") 9 = some 't' := rfl
    have h17 : chAt ("duration.timeout (" ++ pyStr (.int b) ++
        ") should be >= duration.expected (" ++ pyStr (.int a) ++ ")") 17 = some '(' := rfl
    rw [validateData_count_dur des oes dur ht hop hdur hm]
    simp only [List.count_append]
    rw [count_eq_zero_of_headIn hm (by decide) (durationTypeErrors_headIn dur),
        durExpected_count_tchar dur h9, durTimeout_count_paren dur h17]
    simp only [durationOrderErrors, ha, hb, pyIsInt, Bool.and_self, if_true, pyIntVal]
    rw [if_pos hlt]
    rw [count_singleton_self]
  · intro a b ha hb hab
    have hm : headCh ("duration.timeout (" ++ pyStr (.int b) ++
        ") should be >= duration.expected (" ++ pyStr (.int a) ++ ")") = some 'd' := rfl
    have h9 : chAt ("duration.timeout (" ++ pyStr (.int b) ++
        ") should be >= duration.expected (" ++ pyStr (.int a) ++ ")") 9 = some 't' := rfl
    have h17 : chAt ("duration.timeout (" ++ pyStr (.int b) ++
        ") should be >= duration.expected (" ++ pyStr (.int a) ++ ")") 17 = some '(' := rfl
    rw [← List.count_eq_zero]
    rw [validateData_count_dur des oes dur ht hop hdur hm]
    simp only [List.count_append]
    rw [count_eq_zero_of_headIn hm (by decide) (durationTypeErrors_headIn dur),
        durExpected_count_tchar dur h9, durTimeout_count_paren dur h17]
    simp only [durationOrderErrors, ha, hb, pyIsInt, Bool.and_self, if_true, pyIntVal]
    rw [if_neg (Int.not_lt.mpr hab)]
    rfl

lemma durExpected_count_ne (dur : List (String × Yaml)) {m : String}
    (h1 : ∀ x, ("duration.expected must be integer, got: " ++ x) ≠ m)
    (h2 : ∀ x, ("duration.expected must be positive, got: " ++ x) ≠ m) :
    (durationExpectedErrors dur).count m = 0 := by
  unfold durationExpectedErrors
  split
  · rfl
  · split
    · exact count_singleton_of_ne (h1 _)
    · split
      · exact count_singleton_of_ne (h2 _)
      · rfl

lemma durTimeout_count_ne (dur : List (String × Yaml)) {m : String}
    (h1 : ∀ x, ("duration.timeout must be integer, got: " ++ x) ≠ m)
    (h2 : ∀ x, ("duration.timeout must be positive, got: " ++ x) ≠ m) :
    (durationTimeoutErrors dur).count m = 0 := by
  unfold durationTimeoutErrors
  split
  · rfl
  · split
    · exact count_singleton_of_ne (h1 _)
    · split
      · exact count_singleton_of_ne (h2 _)
      · rfl

lemma durOrder_count_ne (dur : List (String × Yaml)) {m : String}
    (h : ∀ t e, ("duration.timeout (" ++ t ++ ") should be >= duration.expected (" ++
      e ++ ")") ≠ m) :
    (durationOrderErrors dur).count m = 0 := by
  unfold durationOrderErrors
  split
  · split
    · split
      · exact count_singleton_of_ne (h _ _)
      · rfl
    · rfl
  · rfl

/-- Concrete documents for the duration-rule witnesses. -/
def exC6a : List (String × Yaml) :=
  [("operation", .dict [("duration", .dict [("expected", .str "x")])])]

def exC6b : List (String × Yaml) :=
  [("operation", .dict [("duration", .dict [("expected", .int 100), ("timeout", .int 50)])])]

def exC6c : List (String × Yaml) :=
  [("operation", .dict [("duration", .dict [("expected", .int 50), ("timeout", .int 100)])])]

theorem C6_witness :
    ("duration.expected must be integer, got: " ++ pyTypeName (.str "x")) ∈
      validateData (.dict exC6a) ∧
    (validateData (.dict exC6b)).count ("duration.timeout (" ++ pyStr (.int 50) ++
      ") should be >= duration.expected (" ++ pyStr (.int 100) ++ ")") = 1 ∧
    ("duration.timeout (" ++ pyStr (.int 100) ++
      ") should be >= duration.expected (" ++ pyStr (.int 50) ++ ")") ∉
      validateData (.dict exC6c) :=
  ⟨(C6_duration_numeric_rules exC6a [("duration", .dict [("expected", .str "x")])]
      [("expected", .str "x")] rfl rfl rfl).1 (.str "x") rfl rfl,
   (C6_duration_numeric_rules exC6b
      [("duration", .dict [("expected", .int 100), ("timeout", .int 50)])]
      [("expected", .int 100), ("timeout", .int 50)] rfl rfl rfl).2.2.2.2.1
      100 50 rfl rfl (by decide),
   (C6_duration_numeric_rules exC6c
      [("duration", .dict [("expected", .int 50), ("timeout", .int 100)])]
      [("expected", .int 50), ("timeout", .int 100)] rfl rfl rfl).2.2.2.2.2
      50 100 rfl rfl (by decide)⟩

lemma ne_of_chAt_vals {a b : String} (k : Nat) {c d : Char}
    (ha : chAt a k = some c) (hb : chAt b k = some d) (hcd : ¬ c = d) : a ≠ b := by
  intro e
  subst e
  rw [ha] at hb
  exact hcd (Option.some.inj hb)

/-- Claim C10: Python booleans satisfy `isinstance(_, int)`, so a boolean in
`duration.expected` / `duration.timeout` passes the integer-type check with no
type violation, and `True` (value 1) also passes the positivity check, so
`duration.expected: true` produces no duration violation at all. -/
theorem C10_boolean_duration (des oes dur : List (String × Yaml))
    (ht : pyTruthy (.dict des) = true)
    (hop : pyGet des "operation" = some (.dict oes))
    (hdur : pyGet oes "duration" = some (.dict dur)) :
    (∀ b, pyGet dur "expected" = some (.bool b) →
      ("duration.expected must be integer, got: bool") ∉ validateData (.dict des)) ∧
    (∀ b, pyGet dur "timeout" = some (.bool b) →
      ("duration.timeout must be integer, got: bool") ∉ validateData (.dict des)) ∧
    (pyGet dur "expected" = some (.bool true) →
      ("duration.expected must be positive, got: True") ∉ validateData (.dict des)) ∧
    durationSection (.dict [("expected", .bool true)]) = .ok [] := by
  refine ⟨?_, ?_, ?_, rfl⟩
  · intro b hv
    rw [← List.count_eq_zero]
    rw [validateData_count_dur des oes dur ht hop hdur
          (m := "duration.expected must be integer, got: bool") rfl]
    simp only [List.count_append]
    rw [count_eq_zero_of_headIn (m := "duration.expected must be integer, got: bool")
          (c := 'd') rfl (by decide) (durationTypeErrors_headIn dur),
        durTimeout_count_ne dur (m := "duration.expected must be integer, got: bool")
          (fun x => ne_of_chAt_vals 9 rfl rfl (by decide))
          (fun x => ne_of_chAt_vals 9 rfl rfl (by decide)),
        durOrder_count_ne dur (m := "duration.expected must be integer, got: bool")
          (fun t e => ne_of_chAt_vals 9 rfl rfl (by decide))]
    simp only [durationExpectedErrors, hv, pyIsInt, Bool.not_true, Bool.false_eq_true,
      if_false, pyIntVal]
    cases b
    · rw [if_pos (by decide)]
      rw [count_singleton_of_ne
            (x := "duration.expected must be positive, got: " ++ pyStr (.bool false))
            (m := "duration.expected must be integer, got: bool")
            (ne_of_chAt_vals 26 rfl rfl (by decide))]
    · rw [if_neg (by decide)]
      rfl
  · intro b hv
    rw [← List.count_eq_zero]
    rw [validateData_count_dur des oes dur ht hop hdur
          (m := "duration.timeout must be integer, got: bool") rfl]
    simp only [List.count_append]
    rw [count_eq_zero_of_headIn (m := "duration.timeout must be integer, got: bool")
          (c := 'd') rfl (by decide) (durationTypeErrors_headIn dur),
        durExpected_count_ne dur (m := "duration.timeout must be integer, got: bool")
          (fun x => ne_of_chAt_vals 9 rfl rfl (by decide))
          (fun x => ne_of_chAt_vals 9 rfl rfl (by decide)),
        durOrder_count_ne dur (m := "duration.timeout must be integer, got: bool")
          (fun t e => ne_of_chAt_vals 17 rfl rfl (by decide))]
    simp only [durationTimeoutErrors, hv, pyIsInt, Bool.not_true, Bool.false_eq_true,
      if_false, pyIntVal]
    cases b
    · rw [if_pos (by decide)]
      rw [count_singleton_of_ne
            (x := "duration.timeout must be positive, got: " ++ pyStr (.bool false))
            (m := "duration.timeout must be integer, got: bool")
            (ne_of_chAt_vals 25 rfl rfl (by decide))]
    · rw [if_neg (by decide)]
      rfl
  · intro hv
    rw [← List.count_eq_zero]
    rw [validateData_count_dur des oes dur ht hop hdur
          (m := "duration.expected must be positive, got: True") rfl]
    simp only [List.count_append]
    rw [count_eq_zero_of_headIn (m := "duration.expected must be positive, got: True")
          (c := 'd') rfl (by decide) (durationTypeErrors_headIn dur),
        durTimeout_count_ne dur (m := "duration.expected must be positive, got: True")
          (fun x => ne_of_chAt_vals 9 rfl rfl (by decide))
          (fun x => ne_of_chAt_vals 9 rfl rfl (by decide)),
        durOrder_count_ne dur (m := "duration.expected must be positive, got: True")
          (fun t e => ne_of_chAt_vals 9 rfl rfl (by decide))]
    simp only [durationExpectedErrors, hv, pyIsInt, Bool.not_true, Bool.false_eq_true,
      if_false, pyIntVal]
    rw [if_neg (by decide)]
    rfl

/-- Concrete document for the C10 witness. -/
def exC10 : List (String × Yaml) :=
  [("operation", .dict [("duration", .dict [("expected", .bool true)])])]

theorem C10_witness :
    ("duration.expected must be integer, got: bool") ∉ validateData (.dict exC10) ∧
    ("duration.expected must be positive, got: True") ∉ validateData (.dict exC10) ∧
    durationSection (.dict [("expected", .bool true)]) = .ok [] :=
  ⟨(C10_boolean_duration exC10 [("duration", .dict [("expected", .bool true)])]
      [("expected", .bool true)] rfl rfl rfl).1 true rfl,
   (C10_boolean_duration exC10 [("duration", .dict [("expected", .bool true)])]
      [("expected", .bool true)] rfl rfl rfl).2.2.1 rfl,
   (C10_boolean_duration exC10 [("duration", .dict [("expected", .bool true)])]
      [("expected", .bool true)] rfl rfl rfl).2.2.2⟩

/-- Claim C7: the schema validator is total on every load outcome — a
deserialization failure becomes exactly one violation message — and a file
whose load raised contributes no record to the dependency graph. -/
theorem C7_parse_failure_handling (m fp : String) (files : List (String × LoadResult)) :
    validate_operation (.yamlError m) = ["YAML parsing error: " ++ m] ∧
    validate_operation (.loadError m) = ["Unexpected error: " ++ m] ∧
    load_operations ((fp, .yamlError m) :: files) = load_operations files ∧
    load_operations ((fp, .loadError m) :: files) = load_operations files :=
  ⟨rfl, rfl, rfl, rfl⟩

/-- Claim C8 (amended): exit statuses of the two scripts.  The schema script
exits 0 exactly when the path exists, some file matched and every file
validated clean.  The dependency script exits 0 exactly when the path exists,
some file matched, no missing reference and no cycle was found, and none of
the reference check, the cycle detector or the statistics pass raised a
`TypeError`; any finding — or any such raise — yields status 1. -/
theorem C8_exit_codes (pe : Bool) (files : List (String × LoadResult)) :
    (validateSchemaMain pe files = 0 ↔
      pe = true ∧ files.isEmpty = false ∧ ∀ f ∈ files, validate_operation f.2 = []) ∧
    (validateDependenciesMain pe files = 0 ↔
      pe = true ∧ files.isEmpty = false ∧
      (find_missing_dependencies (load_operations files)).1 = [] ∧
      (find_missing_dependencies (load_operations files)).2 = false ∧
      (detectSt (load_operations files)).cycles = [] ∧
      (detectSt (load_operations files)).err = false ∧
      (build_dependency_stats (load_operations files)).isSome = true) := by
  have hfilter : ∀ (hs : ∀ f ∈ files, validate_operation f.2 = []),
      files.filter (fun f => !(validate_operation f.2).isEmpty) = [] := by
    intro hs
    rw [List.filter_eq_nil_iff]
    intro f hfm
    rw [hs f hfm]
    simp
  constructor
  · unfold validateSchemaMain
    cases pe
    · simp
    · cases hf : files.isEmpty with
      | true => simp [hf]
      | false =>
        simp only [Bool.not_true, Bool.false_eq_true, if_false]
        constructor
        · intro h
          refine ⟨by simp, by simp, ?_⟩
          intro f hfm
          by_contra hne
          have hmem : f ∈ files.filter (fun f => !(validate_operation f.2).isEmpty) := by
            rw [List.mem_filter]
            refine ⟨hfm, ?_⟩
            rcases hx : validate_operation f.2 with _ | ⟨a, l⟩
            · exact absurd hx hne
            · simp
          have hpos : 0 < (files.filter (fun f => !(validate_operation f.2).isEmpty)).length :=
            List.length_pos.mpr (fun hnil => by rw [hnil] at hmem; cases hmem)
          rw [if_pos hpos] at h
          cases h
        · rintro ⟨-, -, hall⟩
          rw [hfilter hall]
          simp
  · unfold validateDependenciesMain
    cases pe
    · simp
    · cases hf : files.isEmpty with
      | true => simp [hf]
      | false =>
        cases hm : (find_missing_dependencies (load_operations files)).2 with
        | true => simp
        | false =>
          cases he : (detectSt (load_operations files)).err with
          | true => simp
          | false =>
            cases hs : build_dependency_stats (load_operations files) with
            | none => simp
            | some s =>
              cases hms : (find_missing_dependencies (load_operations files)).1 with
              | cons x xs => simp
              | nil =>
                cases hcy : (detectSt (load_operations files)).cycles with
                | cons c cs => simp
                | nil => simp

/-- A fully schema-valid operation mapping. -/
def opValid : List (String × Yaml) := [
  ("id", .str "net-create"), ("name", .str "N"), ("description", .str "D"),
  ("capability", .str "networking"), ("operation_mode", .str "create"),
  ("resource_type", .str "vnet"),
  ("duration", .dict [("expected", .int 1), ("timeout", .int 2), ("type", .str "FAST")]),
  ("template", .dict [("type", .str "bash"), ("command", .str "c")])]

/-- The same operation with a truthy unsized `requires` value: schema-clean,
but `len(requires)` raises in the statistics pass. -/
def exC8op : List (String × Yaml) := opValid ++ [("requires", .int 5)]

/-- One matched file holding `exC8op`. -/
def exC8files : List (String × LoadResult) :=
  [("f.yaml", .ok (.dict [("operation", .dict exC8op)]))]

/-- Claim C8 counterexample: a run with zero schema violations, zero missing
references and zero cycles in which the dependency script still exits 1 —
its statistics pass raises `TypeError` on `len(requires)` for a truthy
integer `requires` value, and the interpreter exits with status 1. -/
theorem C8_counterexample :
    validate_operation (.ok (.dict [("operation", .dict exC8op)])) = [] ∧
    (find_missing_dependencies (load_operations exC8files)).1 = [] ∧
    (find_missing_dependencies (load_operations exC8files)).2 = false ∧
    (detectSt (load_operations exC8files)).cycles = [] ∧
    (detectSt (load_operations exC8files)).err = false ∧
    build_dependency_stats (load_operations exC8files) = none ∧
    validateDependenciesMain true exC8files = 1 :=
  ⟨rfl, rfl, rfl, rfl, rfl, rfl, rfl⟩

/-- One matched file holding a clean operation. -/
def exC8ok : List (String × LoadResult) :=
  [("f.yaml", .ok (.dict [("operation", .dict opValid)]))]

theorem C8_witness :
    validateSchemaMain true exC8ok = 0 ∧ validateDependenciesMain true exC8ok = 0 :=
  ⟨(C8_exit_codes true exC8ok).1.mpr ⟨rfl, rfl, by
      intro f hf
      rw [show exC8ok = [("f.yaml", .ok (.dict [("operation", .dict opValid)]))] from rfl,
        List.mem_singleton] at hf
      subst hf
      rfl⟩,
   (C8_exit_codes true exC8ok).2.mpr ⟨rfl, rfl, rfl, rfl, rfl, rfl, rfl⟩⟩

/-! Statistics (claim C9). -/

lemma statsGo_spec :
    ∀ (ops : List (String × Op)) (st : Stats),
      (∀ p ∈ ops, ∃ l, (p.2 : Op).requires = Yaml.list l) →
      ∃ s, statsGo ops st = some s ∧
        s.total_operations = st.total_operations ∧
        s.total_dependencies = st.total_dependencies +
          (ops.map (fun p => rawLen p.2.requires)).sum ∧
        s.operations_with_deps = st.operations_with_deps +
          (ops.filter (fun p => pyTruthy p.2.requires)).length ∧
        s.max_dependencies =
          max st.max_dependencies ((ops.map (fun p => rawLen p.2.requires)).foldr max 0) ∧
        (s.max_dependencies > st.max_dependencies →
          s.most_dependent_op = Option.map (fun q => q.1)
            (ops.find? (fun q => rawLen q.2.requires == s.max_dependencies))) ∧
        (¬ s.max_dependencies > st.max_dependencies →
          s.most_dependent_op = st.most_dependent_op) := by
  intro ops
  induction ops with
  | nil =>
    intro st _
    exact ⟨st, rfl, rfl, by simp, by simp, by simp,
      fun h => absurd h (Nat.lt_irrefl _), fun _ => rfl⟩
  | cons hd rest ih =>
    intro st hreq
    obtain ⟨l, hl⟩ := hreq hd (by simp)
    rcases hd with ⟨k, od⟩
    simp only at hl
    have hih := ih
    by_cases htr : pyTruthy od.requires = true
    · have hn : l.length > 0 := by
        rw [hl] at htr
        cases l with
        | nil => simp [pyTruthy] at htr
        | cons a t => simp
      have hlen : pyLen od.requires = some l.length := by rw [hl]; rfl
      have hraw : rawLen od.requires = l.length := by rw [hl]; rfl
      by_cases hgt : l.length > st.max_dependencies
      · have hstep : statsGo ((k, od) :: rest) st = statsGo rest
            { total_operations := st.total_operations,
              operations_with_deps := st.operations_with_deps + 1,
              total_dependencies := st.total_dependencies + l.length,
              max_dependencies := l.length,
              most_dependent_op := some k } := by
          simp only [statsGo, htr, Bool.not_true, Bool.false_eq_true, if_false, hlen]
          rw [if_pos hn, if_pos hgt]
        obtain ⟨s, hs, h1, h2, h3, h4, h5, h6⟩ := hih
          { total_operations := st.total_operations,
            operations_with_deps := st.operations_with_deps + 1,
            total_dependencies := st.total_dependencies + l.length,
            max_dependencies := l.length,
            most_dependent_op := some k }
          (fun p hp => hreq p (by simp [hp]))
        simp only at h1 h2 h3 h4 h5 h6
        refine ⟨s, by rw [hstep]; exact hs, h1, ?_, ?_, ?_, ?_, ?_⟩
        · rw [h2]
          simp only [List.map_cons, List.sum_cons, hraw]
          omega
        · rw [h3]
          rw [List.filter_cons_of_pos (by simpa using htr)]
          simp only [List.length_cons]
          omega
        · rw [h4]
          simp only [List.map_cons, List.foldr_cons, hraw]
          exact (Nat.max_eq_right (le_trans (Nat.le_of_lt hgt) (Nat.le_max_left _ _))).symm
        · intro _
          by_cases hgt2 : s.max_dependencies > l.length
          · have hne : (rawLen od.requires == s.max_dependencies) = false := by
              rw [hraw]
              exact beq_eq_false_iff_ne.mpr (Nat.ne_of_lt hgt2)
            simp only [List.find?, hne]
            exact h5 hgt2
          · have hsm : s.max_dependencies = l.length :=
              Nat.le_antisymm (Nat.not_lt.mp hgt2) (by rw [h4]; exact Nat.le_max_left _ _)
            have hps : (rawLen od.requires == s.max_dependencies) = true := by
              rw [hraw, hsm]
              exact beq_self_eq_true _
            simp only [List.find?, hps]
            exact h6 hgt2
        · intro hngt
          exfalso
          rw [h4] at hngt
          exact hngt (lt_of_lt_of_le hgt (Nat.le_max_left _ _))
      · have hstep : statsGo ((k, od) :: rest) st = statsGo rest
            { total_operations := st.total_operations,
              operations_with_deps := st.operations_with_deps + 1,
              total_dependencies := st.total_dependencies + l.length,
              max_dependencies := st.max_dependencies,
              most_dependent_op := st.most_dependent_op } := by
          simp only [statsGo, htr, Bool.not_true, Bool.false_eq_true, if_false, hlen]
          rw [if_pos hn, if_neg hgt]
        obtain ⟨s, hs, h1, h2, h3, h4, h5, h6⟩ := hih
          { total_operations := st.total_operations,
            operations_with_deps := st.operations_with_deps + 1,
            total_dependencies := st.total_dependencies + l.length,
            max_dependencies := st.max_dependencies,
            most_dependent_op := st.most_dependent_op }
          (fun p hp => hreq p (by simp [hp]))
        simp only at h1 h2 h3 h4 h5 h6
        refine ⟨s, by rw [hstep]; exact hs, h1, ?_, ?_, ?_, ?_, h6⟩
        · rw [h2]
          simp only [List.map_cons, List.sum_cons, hraw]
          omega
        · rw [h3]
          rw [List.filter_cons_of_pos (by simpa using htr)]
          simp only [List.length_cons]
          omega
        · rw [h4]
          simp only [List.map_cons, List.foldr_cons, hraw]
          rw [← Nat.max_assoc, Nat.max_eq_left (Nat.not_lt.mp hgt)]
        · intro hgt2
          have hne : (rawLen od.requires == s.max_dependencies) = false := by
            rw [hraw]
            exact beq_eq_false_iff_ne.mpr
              (Nat.ne_of_lt (lt_of_le_of_lt (Nat.not_lt.mp hgt) hgt2))
          simp only [List.find?, hne]
          exact h5 hgt2
    · have hl0 : l = [] := by
        rw [hl] at htr
        cases l with
        | nil => rfl
        | cons a t => simp [pyTruthy] at htr
      have htr' : pyTruthy od.requires = false := by
        rw [hl, hl0]
        rfl
      have hraw : rawLen od.requires = 0 := by rw [hl, hl0]; rfl
      have hstep : statsGo ((k, od) :: rest) st = statsGo rest st := by
        simp only [statsGo, htr', Bool.not_false, if_true]
      obtain ⟨s, hs, h1, h2, h3, h4, h5, h6⟩ := hih st (fun p hp => hreq p (by simp [hp]))
      refine ⟨s, by rw [hstep]; exact hs, h1, ?_, ?_, ?_, ?_, h6⟩
      · rw [h2]
        simp only [List.map_cons, List.sum_cons, hraw]
        omega
      · rw [h3]
        rw [List.filter_cons_of_neg (by simp [htr'])]
      · rw [h4]
        simp only [List.map_cons, List.foldr_cons, hraw]
        simp
      · intro hgt
        have hne : (rawLen od.requires == s.max_dependencies) = false := by
          rw [hraw]
          exact beq_eq_false_iff_ne.mpr (by omega)
        simp only [List.find?, hne]
        exact h5 hgt

/-- A positive `foldr max 0` over a list of naturals is attained by a member. -/
lemma foldr_max_mem (l : List Nat) (h : 0 < l.foldr max 0) : l.foldr max 0 ∈ l := by
  induction l with
  | nil => simp at h
  | cons a t ih =>
    simp only [List.foldr_cons] at h ⊢
    rcases Nat.le_total (t.foldr max 0) a with hle | hle
    · rw [Nat.max_eq_left hle]
      exact List.mem_cons_self a t
    · rw [Nat.max_eq_right hle] at h ⊢
      exact List.mem_cons_of_mem a (ih h)

/-- Claim C9 (amended): the statistics report the number of loaded operations,
the count of records with a truthy `requires` list, the sum of the RAW
lengths of the `requires` lists (which equals the requires-graph's edge count
only when every entry resolves to a loaded id), the maximum raw length, and
the id of the FIRST operation attaining that maximum (the strict `>` update
keeps the first attaining record; with a zero maximum no owner is reported). -/
theorem C9_statistics (ops : List (String × Op))
    (hreq : ∀ p ∈ ops, ∃ l, (p.2 : Op).requires = Yaml.list l) :
    ∃ s, build_dependency_stats ops = some s ∧
      s.total_operations = ops.length ∧
      s.total_dependencies = (ops.map (fun p => rawLen p.2.requires)).sum ∧
      s.operations_with_deps = (ops.filter (fun p => pyTruthy p.2.requires)).length ∧
      s.max_dependencies = (ops.map (fun p => rawLen p.2.requires)).foldr max 0 ∧
      (s.max_dependencies = 0 → s.most_dependent_op = none) ∧
      (s.max_dependencies > 0 →
        s.most_dependent_op = firstMaxOwner ops s.max_dependencies ∧
        ∃ p ∈ ops, s.most_dependent_op = some p.1 ∧
          rawLen p.2.requires = s.max_dependencies) := by
  obtain ⟨s, hs, h1, h2, h3, h4, h5, h6⟩ := statsGo_spec ops
    { total_operations := ops.length, operations_with_deps := 0,
      total_dependencies := 0, max_dependencies := 0, most_dependent_op := none } hreq
  simp only at h1 h2 h3 h4 h5 h6
  have h4' : s.max_dependencies = (ops.map (fun p => rawLen p.2.requires)).foldr max 0 := by
    rw [h4]
    simp
  refine ⟨s, hs, h1, by rw [h2]; exact Nat.zero_add _, by rw [h3]; exact Nat.zero_add _,
    h4', ?_, ?_⟩
  · intro hz
    exact h6 (by omega)
  · intro hpos
    have hmeq : s.most_dependent_op = firstMaxOwner ops s.max_dependencies := h5 hpos
    refine ⟨hmeq, ?_⟩
    have hmem : s.max_dependencies ∈ ops.map (fun p => rawLen p.2.requires) := by
      rw [h4']
      exact foldr_max_mem _ (by rw [← h4']; exact hpos)
    obtain ⟨p, hp, hpl⟩ := List.mem_map.mp hmem
    have hsome : (ops.find? (fun q => rawLen q.2.requires == s.max_dependencies)).isSome :=
      List.find?_isSome.mpr ⟨p, hp, by rw [hpl]; exact beq_self_eq_true _⟩
    obtain ⟨q, hq⟩ := Option.isSome_iff_exists.mp hsome
    have hqp := List.find?_some
      (p := fun r : String × Op => rawLen r.2.requires == s.max_dependencies) hq
    refine ⟨q, List.mem_of_find?_eq_some hq, ?_, eq_of_beq hqp⟩
    rw [hmeq]
    simp [firstMaxOwner, hq]

/-- A record whose `requires` list holds one null entry: the statistics count
it, the requires-graph has no edge. -/
def exC9 : List (String × Op) :=
  [("A", { file := "f.yaml", name := .str "Unknown",
           requires := .list [.null], capability := .str "unknown" })]

/-- Claim C9 counterexample: the reported `total_dependencies` is 1 while the
requires-graph of the same record set has 0 edges — the statistics count raw
`requires` entries, not graph edges. -/
theorem C9_counterexample :
    build_dependency_stats exC9 = some
      { total_operations := 1, operations_with_deps := 1, total_dependencies := 1,
        max_dependencies := 1, most_dependent_op := some "A" } ∧
    specEdgeCount exC9 = 0 :=
  ⟨rfl, rfl⟩

/-- Two concrete records for the C9 witness. -/
def exC9w : List (String × Op) :=
  [("A", { file := "a.yaml", name := .str "Unknown",
           requires := .list [.str "B"], capability := .str "unknown" }),
   ("B", { file := "b.yaml", name := .str "Unknown",
           requires := .list [], capability := .str "unknown" })]

theorem C9_witness :
    ∃ s, build_dependency_stats exC9w = some s ∧
      s.total_operations = exC9w.length ∧
      s.total_dependencies = (exC9w.map (fun p => rawLen p.2.requires)).sum ∧
      s.operations_with_deps = (exC9w.filter (fun p => pyTruthy p.2.requires)).length ∧
      s.max_dependencies = (exC9w.map (fun p => rawLen p.2.requires)).foldr max 0 ∧
      (s.max_dependencies = 0 → s.most_dependent_op = none) ∧
      (s.max_dependencies > 0 →
        s.most_dependent_op = firstMaxOwner exC9w s.max_dependencies ∧
        ∃ p ∈ exC9w, s.most_dependent_op = some p.1 ∧
          rawLen p.2.requires = s.max_dependencies) :=
  C9_statistics exC9w (by
    intro p hp
    simp only [exC9w, List.mem_cons, List.not_mem_nil, or_false] at hp
    rcases hp with hp | hp
    · exact ⟨[.str "B"], by rw [hp]⟩
    · exact ⟨[], by rw [hp]⟩)

/-- Claim C5: a one-node graph whose operation requires its own (truthy) id
yields exactly one reported cycle, the node repeated twice. -/
theorem C5_self_loop (a : String) (op : Op) (ha : a ≠ "")
    (hreq : op.requires = .list [.str a]) :
    detect_circular_dependencies [(a, op)] = [[a, a]] := by
  have hbne : (a != "") = true := bne_iff_ne.mpr ha
  have hself : (a == a) = true := beq_self_eq_true a
  simp only [detect_circular_dependencies, detectSt, List.foldl, List.length_cons,
    List.length_nil, List.contains, List.elem, dfs, depsLoop, reqList, opLookup,
    List.find?, hself, resolveDep, pyTruthy, hbne, List.any, listIdx, List.drop,
    hreq, Bool.not_true, Bool.not_false, Bool.or_false, Bool.false_or, if_true,
    if_false, Bool.false_eq_true, Bool.true_eq_false, cond_true, cond_false]
  simp

/-- Concrete self-loop record for the C5 witness. -/
def exC5op : Op :=
  { file := "f.yaml", name := .str "Unknown",
    requires := .list [.str "A"], capability := .str "unknown" }

theorem C5_witness :
    detect_circular_dependencies [("A", exC5op)] = [["A", "A"]] :=
  C5_self_loop "A" exC5op (by decide) rfl

/-! Entries that resolve to a falsy value are invisible to both checkers
(claim C2). -/

lemma scanMissing_append_ignorable (ids : List String) (op_id fp : String) (e : Yaml)
    (he : pyTruthy (resolveDep e) = false) :
    ∀ l, scanMissing ids op_id fp (l ++ [e]) = scanMissing ids op_id fp l := by
  intro l
  induction l with
  | nil =>
    simp only [List.nil_append, scanMissing, he, Bool.not_false, if_true]
  | cons d rest ih =>
    simp only [List.cons_append, scanMissing, List.append_eq, ih]

lemma fmGo_set_ignorable (ids : List String) (a : String) (o : Op) (ds : List Yaml)
    (e : Yaml) (post : List (String × Op)) (hreq : o.requires = .list ds)
    (he : pyTruthy (resolveDep e) = false) :
    ∀ pre, fmGo ids (pre ++ (a, { o with requires := .list (ds ++ [e]) }) :: post) =
      fmGo ids (pre ++ (a, o) :: post) := by
  intro pre
  induction pre with
  | nil =>
    simp only [List.nil_append, fmGo]
    rw [hreq]
    simp only
    rw [scanMissing_append_ignorable ids a o.file e he ds]
  | cons hd t ih =>
    rcases hd with ⟨k, od⟩
    simp only [List.cons_append, fmGo, List.append_eq]
    rw [ih]

lemma depsLoop_rec_congr {r1 r2 : String → List String → CycSt → CycSt}
    (h : ∀ s rs st, r1 s rs st = r2 s rs st) (ops : List (String × Op)) (rs : List String) :
    ∀ l st, depsLoop r1 ops rs l st = depsLoop r2 ops rs l st := by
  intro l
  induction l with
  | nil => intro st; rfl
  | cons d rest ih =>
    intro st
    simp only [depsLoop, h, ih]

lemma depsLoop_ops_congr {ops1 ops2 : List (String × Op)}
    (h : ∀ s, ops1.any (fun p => p.1 == s) = ops2.any (fun p => p.1 == s))
    (rec : String → List String → CycSt → CycSt) (rs : List String) :
    ∀ l st, depsLoop rec ops1 rs l st = depsLoop rec ops2 rs l st := by
  intro l
  induction l with
  | nil => intro st; rfl
  | cons d rest ih =>
    intro st
    simp only [depsLoop, h, ih]

lemma depsLoop_append_ignorable (rec : String → List String → CycSt → CycSt)
    (ops : List (String × Op)) (rs : List String) (e : Yaml)
    (he : pyTruthy (resolveDep e) = false) :
    ∀ l st, depsLoop rec ops rs (l ++ [e]) st = depsLoop rec ops rs l st := by
  intro l
  induction l with
  | nil =>
    intro st
    simp only [List.nil_append, depsLoop, he, Bool.not_false, if_true, ite_self]
  | cons d rest ih =>
    intro st
    simp only [List.cons_append, depsLoop, List.append_eq, ih]

lemma anyKeys_set (pre post : List (String × Op)) (a : String) (o o' : Op) (s : String) :
    ((pre ++ (a, o') :: post).any (fun p => p.1 == s)) =
    ((pre ++ (a, o) :: post).any (fun p => p.1 == s)) := by
  simp [List.any_append]

lemma opLookup_set (pre post : List (String × Op)) (a : String) (o o' : Op) :
    ∀ n, opLookup (pre ++ (a, o') :: post) n = opLookup (pre ++ (a, o) :: post) n ∨
      (opLookup (pre ++ (a, o') :: post) n = some o' ∧
       opLookup (pre ++ (a, o) :: post) n = some o) := by
  intro n
  induction pre with
  | nil =>
    by_cases hh : (a == n) = true
    · right
      constructor
      · simp only [List.nil_append, opLookup, List.find?, hh]
      · simp only [List.nil_append, opLookup, List.find?, hh]
    · have hh' : (a == n) = false := by simpa using hh
      left
      simp only [List.nil_append, opLookup, List.find?, hh']
  | cons hd t ih =>
    by_cases hh : (hd.1 == n) = true
    · left
      simp only [List.cons_append, opLookup, List.find?, hh]
    · have hh' : (hd.1 == n) = false := by simpa using hh
      simp only [opLookup] at ih
      simp only [List.cons_append, opLookup, List.find?, hh']
      exact ih

lemma reqList_set (pre post : List (String × Op)) (a : String) (o : Op)
    (ds : List Yaml) (e : Yaml) (hreq : o.requires = .list ds) :
    ∀ n, reqList (pre ++ (a, { o with requires := .list (ds ++ [e]) }) :: post) n =
          reqList (pre ++ (a, o) :: post) n ∨
      (reqList (pre ++ (a, { o with requires := .list (ds ++ [e]) }) :: post) n = ds ++ [e] ∧
       reqList (pre ++ (a, o) :: post) n = ds) := by
  intro n
  rcases opLookup_set pre post a o { o with requires := .list (ds ++ [e]) } n with heq | ⟨h1, h2⟩
  · left
    unfold reqList
    rw [heq]
  · right
    have hv : (match o.requires with
        | Yaml.list l => l
        | _ => ([] : List Yaml)) = ds := by
      rw [hreq]
    unfold reqList
    rw [h1, h2]
    exact ⟨rfl, hv⟩

lemma dfs_set (pre post : List (String × Op)) (a : String) (o : Op)
    (ds : List Yaml) (e : Yaml) (hreq : o.requires = .list ds)
    (he : pyTruthy (resolveDep e) = false) :
    ∀ fuel n rs st,
      dfs (pre ++ (a, { o with requires := .list (ds ++ [e]) }) :: post) fuel n rs st =
      dfs (pre ++ (a, o) :: post) fuel n rs st := by
  intro fuel
  induction fuel with
  | zero => intro n rs st; rfl
  | succ fuel ih =>
    intro n rs st
    simp only [dfs]
    by_cases herr : st.err = true
    · rw [if_pos herr, if_pos herr]
    · rw [if_neg herr, if_neg herr]
      rw [depsLoop_rec_congr ih _ _]
      rw [depsLoop_ops_congr
            (fun s => anyKeys_set pre post a o { o with requires := .list (ds ++ [e]) } s) _ _]
      rcases reqList_set pre post a o ds e hreq n with heq | ⟨h1, h2⟩
      · rw [heq]
      · rw [h1, h2, depsLoop_append_ignorable _ _ _ e he]

lemma foldl_body_congr {f1 f2 : CycSt → String × Op → CycSt}
    (h : ∀ st (k : String) (x y : Op), f1 st (k, x) = f2 st (k, y)) :
    ∀ (l1 l2 : List (String × Op)), l1.map (fun p => p.1) = l2.map (fun p => p.1) →
      ∀ st, l1.foldl f1 st = l2.foldl f2 st := by
  intro l1
  induction l1 with
  | nil =>
    intro l2 hm st
    cases l2 with
    | nil => rfl
    | cons q t => simp at hm
  | cons p t1 ih =>
    intro l2 hm st
    cases l2 with
    | nil => simp at hm
    | cons q t2 =>
      simp only [List.map_cons, List.cons.injEq] at hm
      rcases p with ⟨k1, x⟩
      rcases q with ⟨k2, y⟩
      simp only at hm
      rcases hm with ⟨hk, hmt⟩
      subst hk
      simp only [List.foldl_cons]
      rw [h st k1 x y]
      exact ih t2 hmt _

lemma detectSt_set (pre post : List (String × Op)) (a : String) (o : Op)
    (ds : List Yaml) (e : Yaml) (hreq : o.requires = .list ds)
    (he : pyTruthy (resolveDep e) = false) :
    detectSt (pre ++ (a, { o with requires := .list (ds ++ [e]) }) :: post) =
    detectSt (pre ++ (a, o) :: post) := by
  unfold detectSt
  apply foldl_body_congr
  · intro st k x y
    simp only
    by_cases herr : st.err = true
    · rw [if_pos herr, if_pos herr]
    · rw [if_neg herr, if_neg herr]
      by_cases hv : st.visitedGlobal.contains k = true
      · rw [if_pos hv, if_pos hv]
      · rw [if_neg hv, if_neg hv]
        rw [show (pre ++ (a, { o with requires := .list (ds ++ [e]) }) :: post).length =
              (pre ++ (a, o) :: post).length by simp]
        exact dfs_set pre post a o ds e hreq he _ k [] _
  · simp

/-- Claim C2 (amended): a `requires` entry whose resolution is falsy — a bare
falsy value, or a mapping whose `operation` key is absent or falsy — is
invisible to both checkers: appending it to a record's `requires` list changes
neither the Reference Checker's findings nor the Cycle Detector's entire
state, so it contributes no finding and no edge.  (A truthy non-string entry,
by contrast, IS reported missing by the Reference Checker; see the
counterexample.) -/
theorem C2_ignorable_entries (pre post : List (String × Op)) (a : String) (o : Op)
    (ds : List Yaml) (e : Yaml) (hreq : o.requires = .list ds)
    (he : pyTruthy (resolveDep e) = false) :
    find_missing_dependencies (pre ++ (a, { o with requires := .list (ds ++ [e]) }) :: post) =
      find_missing_dependencies (pre ++ (a, o) :: post) ∧
    detectSt (pre ++ (a, { o with requires := .list (ds ++ [e]) }) :: post) =
      detectSt (pre ++ (a, o) :: post) := by
  constructor
  · unfold find_missing_dependencies
    rw [show (pre ++ (a, { o with requires := .list (ds ++ [e]) }) :: post).map
          (fun p => p.1) = (pre ++ (a, o) :: post).map (fun p => p.1) by simp]
    exact fmGo_set_ignorable _ a o ds e post hreq he pre
  · exact detectSt_set pre post a o ds e hreq he

/-- A truthy non-string entry (an integer) in a `requires` list: the claim
predicts it is silently ignored, but the Reference Checker reports it. -/
def exC2 : List (String × Op) :=
  [("a", { file := "f.yaml", name := .str "Unknown",
           requires := .list [.int 1], capability := .str "unknown" })]

/-- Claim C2 counterexample: the entry `1` is neither a bare id string nor a
mapping with an `operation` field, yet `find_missing_dependencies` emits a
finding for it instead of treating it as absent. -/
theorem C2_counterexample : (find_missing_dependencies exC2).1.length = 1 := rfl

/-- Concrete record for the C2 witness. -/
def exC2wo : Op :=
  { file := "f.yaml", name := .str "Unknown",
    requires := .list [], capability := .str "unknown" }

theorem C2_witness :
    (find_missing_dependencies
        ([] ++ ("a", { exC2wo with requires := Yaml.list ([] ++ [Yaml.dict []]) }) :: []) =
      find_missing_dependencies ([] ++ ("a", exC2wo) :: [])) ∧
    (detectSt ([] ++ ("a", { exC2wo with requires := Yaml.list ([] ++ [Yaml.dict []]) }) :: []) =
      detectSt ([] ++ ("a", exC2wo) :: [])) :=
  C2_ignorable_entries [] [] "a" exC2wo [] (Yaml.dict []) rfl rfl

/-! The recursion stack as a path of requires-edges (claim C1). -/

/-- The recursion stack is a chain of requires-edges ending at `n`. -/
def stackTo (ops : List (String × Op)) : List String → String → Prop
  | [], _ => False
  | [x], n => x = n
  | x :: y :: t, n => edgeRel ops x y ∧ stackTo ops (y :: t) n

lemma stackTo_last_mem {ops : List (String × Op)} :
    ∀ {l : List String} {n s : String}, stackTo ops l n → s ∈ l →
      s = n ∨ Relation.TransGen (edgeRel ops) s n := by
  intro l
  induction l with
  | nil => intro n s h hm; cases hm
  | cons x t ih =>
    intro n s h hm
    cases t with
    | nil =>
      rw [List.mem_singleton] at hm
      subst hm
      exact Or.inl h
    | cons y t' =>
      rcases h with ⟨hxy, hrest⟩
      rcases List.mem_cons.mp hm with rfl | hm'
      · rcases ih (s := y) hrest (List.mem_cons_self y t') with hy | htg
        · rw [hy] at hxy
          exact Or.inr (Relation.TransGen.single hxy)
        · exact Or.inr (Relation.TransGen.head hxy htg)
      · exact ih hrest hm'

lemma stackTo_extend {ops : List (String × Op)} :
    ∀ {l : List String} {n s : String}, stackTo ops l n → edgeRel ops n s →
      stackTo ops (l ++ [s]) s := by
  intro l
  induction l with
  | nil => intro n s h _; cases h
  | cons x t ih =>
    intro n s h he
    cases t with
    | nil =>
      cases h
      exact ⟨he, rfl⟩
    | cons y t' =>
      rcases h with ⟨hxy, hrest⟩
      exact ⟨hxy, ih hrest he⟩

lemma dfs_acyclic_cycles (ops : List (String × Op)) (hac : Acyclic ops) :
    ∀ fuel node recStack st, stackTo ops (recStack ++ [node]) node →
      (dfs ops fuel node recStack st).cycles = st.cycles := by
  intro fuel
  induction fuel with
  | zero => intro node rs st _; rfl
  | succ fuel ih =>
    intro node recStack st hstack
    simp only [dfs]
    by_cases herr : st.err = true
    · rw [if_pos herr]
    · rw [if_neg herr]
      have inner : ∀ (deps : List Yaml), (∀ d ∈ deps, d ∈ reqList ops node) →
          ∀ st', (depsLoop (dfs ops fuel) ops (recStack ++ [node]) deps st').cycles =
            st'.cycles := by
        intro deps
        induction deps with
        | nil => intro _ st'; rfl
        | cons dep rest ihd =>
          intro hsub st'
          have hdep : dep ∈ reqList ops node := hsub dep (by simp)
          have hrest : ∀ d ∈ rest, d ∈ reqList ops node :=
            fun d hd => hsub d (by simp [hd])
          simp only [depsLoop]
          by_cases herr' : st'.err = true
          · rw [if_pos herr']
          · rw [if_neg herr']
            by_cases htr : (!pyTruthy (resolveDep dep)) = true
            · rw [if_pos htr]
              exact ihd hrest st'
            · rw [if_neg htr]
              have htr' : pyTruthy (resolveDep dep) = true := by simpa using htr
              rcases hre : resolveDep dep with _ | b | ni | s | xs | des
              · rfl
              · exact ihd hrest st'
              · exact ihd hrest st'
              · -- string entry
                have hne : (s != "") = true := by
                  rw [hre] at htr'
                  simpa [pyTruthy] using htr'
                dsimp only
                by_cases hknown : (!(ops.any (fun p => p.1 == s))) = true
                · rw [if_pos hknown]
                  exact ihd hrest st'
                · rw [if_neg hknown]
                  have hany : (ops.any (fun p => p.1 == s)) = true := by
                    simpa using hknown
                  have hedge : edgeRel ops node s := by
                    unfold edgeRel effDeps
                    refine List.mem_filterMap.mpr ⟨dep, hdep, ?_⟩
                    rw [hre]
                    simp [hne, hany]
                  by_cases hvis : (!(st'.visited.contains s)) = true
                  · rw [if_pos hvis]
                    rw [ihd hrest _]
                    exact ih s (recStack ++ [node]) st' (stackTo_extend hstack hedge)
                  · rw [if_neg hvis]
                    by_cases hrs : ((recStack ++ [node]).contains s) = true
                    · exfalso
                      have hmem : s ∈ recStack ++ [node] := by
                        simpa using hrs
                      rcases stackTo_last_mem hstack hmem with rfl | htg
                      · exact hac s (Relation.TransGen.single hedge)
                      · exact hac s (Relation.TransGen.tail htg hedge)
                    · rw [if_neg hrs]
                      exact ihd hrest st'
              · rfl
              · rfl
      rw [inner (reqList ops node) (fun d hd => hd) _]

lemma detect_acyclic (ops : List (String × Op)) (hac : Acyclic ops) :
    detect_circular_dependencies ops = [] := by
  unfold detect_circular_dependencies detectSt
  have key : ∀ (l : List (String × Op)) (st : CycSt), st.cycles = [] →
      (l.foldl (fun st p =>
        if st.err then st
        else if st.visitedGlobal.contains p.1 then st
        else dfs ops (ops.length + 1) p.1 [] { st with visited := [] }) st).cycles = [] := by
    intro l
    induction l with
    | nil => intro st h; exact h
    | cons p t ih =>
      intro st h
      simp only [List.foldl_cons]
      apply ih
      by_cases herr : st.err = true
      · rw [if_pos herr]; exact h
      · rw [if_neg herr]
        by_cases hv : st.visitedGlobal.contains p.1 = true
        · rw [if_pos hv]; exact h
        · rw [if_neg hv]
          rw [dfs_acyclic_cycles ops hac (ops.length + 1) p.1 [] _ rfl]
          exact h
  exact key ops _ rfl

lemma depsLoop_global_mono (ops : List (String × Op)) (rs : List String)
    (rec : String → List String → CycSt → CycSt)
    (hrec : ∀ s rs' st x, x ∈ st.visitedGlobal → x ∈ (rec s rs' st).visitedGlobal) :
    ∀ deps st x, x ∈ st.visitedGlobal → x ∈ (depsLoop rec ops rs deps st).visitedGlobal := by
  intro deps
  induction deps with
  | nil => intro st x hx; exact hx
  | cons dep rest ihd =>
    intro st x hx
    simp only [depsLoop]
    by_cases herr : st.err = true
    · rw [if_pos herr]; exact hx
    · rw [if_neg herr]
      by_cases htr : (!pyTruthy (resolveDep dep)) = true
      · rw [if_pos htr]; exact ihd st x hx
      · rw [if_neg htr]
        rcases hre : resolveDep dep with _ | b | ni | s | xs | des
        · exact hx
        · exact ihd st x hx
        · exact ihd st x hx
        · dsimp only
          by_cases hknown : (!(ops.any (fun p => p.1 == s))) = true
          · rw [if_pos hknown]; exact ihd st x hx
          · rw [if_neg hknown]
            by_cases hvis : (!(st.visited.contains s)) = true
            · rw [if_pos hvis]
              exact ihd _ x (hrec s rs st x hx)
            · rw [if_neg hvis]
              by_cases hrs : (rs.contains s) = true
              · rw [if_pos hrs]
                apply ihd
                by_cases hcy : (st.cycles.contains (rs.drop (listIdx s rs) ++ [s])) = true
                · rw [if_pos hcy]; exact hx
                · rw [if_neg hcy]; exact hx
              · rw [if_neg hrs]; exact ihd st x hx
        · exact hx
        · exact hx

lemma dfs_global_mono (ops : List (String × Op)) :
    ∀ fuel node rs st x, x ∈ st.visitedGlobal → x ∈ (dfs ops fuel node rs st).visitedGlobal := by
  intro fuel
  induction fuel with
  | zero => intro node rs st x hx; exact hx
  | succ fuel ih =>
    intro node rs st x hx
    simp only [dfs]
    by_cases herr : st.err = true
    · rw [if_pos herr]; exact hx
    · rw [if_neg herr]
      apply depsLoop_global_mono ops _ _ (fun s rs' st' y hy => ih s rs' st' y hy)
      simp only
      exact List.mem_append_left _ hx

lemma dfs_global_self (ops : List (String × Op)) :
    ∀ fuel node rs st, st.err = false → 0 < fuel →
      node ∈ (dfs ops fuel node rs st).visitedGlobal := by
  intro fuel
  cases fuel with
  | zero => intro node rs st _ h; cases h
  | succ fuel =>
    intro node rs st herr _
    simp only [dfs]
    rw [if_neg (by rw [herr]; exact Bool.false_ne_true)]
    apply depsLoop_global_mono ops _ _
      (fun s rs' st' y hy => dfs_global_mono ops fuel s rs' st' y hy)
    simp only
    exact List.mem_append_right _ (List.mem_singleton.mpr rfl)

lemma detect_fold_err_stays (ops : List (String × Op)) :
    ∀ (l : List (String × Op)) (st : CycSt), st.err = true →
      (l.foldl (fun st p =>
        if st.err then st
        else if st.visitedGlobal.contains p.1 then st
        else dfs ops (ops.length + 1) p.1 [] { st with visited := [] }) st) = st := by
  intro l
  induction l with
  | nil => intro st _; rfl
  | cons p t ih =>
    intro st herr
    simp only [List.foldl_cons]
    rw [if_pos herr]
    exact ih st herr

lemma detect_covers (ops : List (String × Op)) :
    (detectSt ops).err = false →
      ∀ k ∈ ops.map (fun p => p.1), k ∈ (detectSt ops).visitedGlobal := by
  unfold detectSt
  have key : ∀ (l : List (String × Op)) (st : CycSt),
      (l.foldl (fun st p =>
        if st.err then st
        else if st.visitedGlobal.contains p.1 then st
        else dfs ops (ops.length + 1) p.1 [] { st with visited := [] }) st).err = false →
      (∀ x ∈ st.visitedGlobal,
        x ∈ (l.foldl (fun st p =>
          if st.err then st
          else if st.visitedGlobal.contains p.1 then st
          else dfs ops (ops.length + 1) p.1 [] { st with visited := [] }) st).visitedGlobal) ∧
      (∀ k ∈ l.map (fun p => p.1),
        k ∈ (l.foldl (fun st p =>
          if st.err then st
          else if st.visitedGlobal.contains p.1 then st
          else dfs ops (ops.length + 1) p.1 [] { st with visited := [] }) st).visitedGlobal) := by
    intro l
    induction l with
    | nil =>
      intro st _
      exact ⟨fun x hx => hx, fun k hk => absurd hk (List.not_mem_nil k)⟩
    | cons p t ih =>
      intro st hbot
      simp only [List.foldl_cons] at hbot ⊢
      by_cases herr : st.err = true
      · rw [if_pos herr] at hbot ⊢
        rw [detect_fold_err_stays ops t st herr] at hbot
        rw [herr] at hbot
        cases hbot
      · rw [if_neg herr] at hbot ⊢
        by_cases hv : st.visitedGlobal.contains p.1 = true
        · rw [if_pos hv] at hbot ⊢
          obtain ⟨hmono, hcov⟩ := ih st hbot
          refine ⟨hmono, ?_⟩
          intro k hk
          rw [List.map_cons] at hk
          rcases List.mem_cons.mp hk with heq | hk'
          · rw [heq]; exact hmono p.1 (by simpa using hv)
          · exact hcov k hk'
        · rw [if_neg hv] at hbot ⊢
          obtain ⟨hmono, hcov⟩ := ih _ hbot
          refine ⟨?_, ?_⟩
          · intro x hx
            apply hmono
            exact dfs_global_mono ops _ p.1 [] _ x hx
          · intro k hk
            rw [List.map_cons] at hk
            rcases List.mem_cons.mp hk with heq | hk'
            · rw [heq]
              apply hmono
              exact dfs_global_self ops (ops.length + 1) p.1 []
                { st with visited := [] } (by simpa using herr) (Nat.succ_pos _)
            · exact hcov k hk'
  intro hbot k hk
  exact (key ops _ hbot).2 k hk

def exC1 : List (String × Op) :=
  [("A", { file := "a.yaml", name := .str "Unknown",
           requires := .list [.str "C"], capability := .str "unknown" }),
   ("B", { file := "b.yaml", name := .str "Unknown",
           requires := .list [.str "C"], capability := .str "unknown" }),
   ("C", { file := "c.yaml", name := .str "Unknown",
           requires := .list [], capability := .str "unknown" })]

/-- Claim C1 counterexample: in the acyclic graph A→C, B→C, C the global
visited set only guards root selection, so the root search from B re-enters C
(entry sequence A, C, B, C; C entered twice), refuting "visits each node at
most once across all roots" and "exactly once"; the cycle report is still
empty. -/
theorem C1_counterexample :
    (detectSt exC1).visitedGlobal = ["A", "C", "B", "C"] ∧
    (detectSt exC1).visitedGlobal.count "C" = 2 ∧
    detect_circular_dependencies exC1 = [] := by
  refine ⟨rfl, ?_, rfl⟩
  decide

/-- Claim C1 (corrected): on an acyclic requires-graph the detector reports
zero cycles, and when no `TypeError` interrupts the root loop every loaded id
appears in the global visited sequence (at least once — not exactly once, see
the counterexample). -/
theorem C1_traversal (ops : List (String × Op)) (hac : Acyclic ops)
    (herr : (detectSt ops).err = false) :
    detect_circular_dependencies ops = [] ∧
      ∀ k ∈ ops.map (fun p => p.1), k ∈ (detectSt ops).visitedGlobal :=
  ⟨detect_acyclic ops hac, detect_covers ops herr⟩

def exC1wops : List (String × Op) :=
  [("x", { file := "w.yaml", name := .str "Unknown",
           requires := .list [], capability := .str "unknown" })]

/-- The one-node, no-edge witness graph is acyclic. -/
lemma exC1wops_acyclic : Acyclic exC1wops := by
  have hne : ∀ a b, ¬ edgeRel exC1wops a b := by
    intro a b hb
    by_cases h : a = "x"
    · subst h
      simp only [edgeRel, effDeps, reqList, opLookup, exC1wops, List.find?,
        beq_self_eq_true, List.filterMap_nil] at hb
      exact absurd hb (List.not_mem_nil b)
    · have hx : ("x" == a) = false := beq_eq_false_iff_ne.mpr (fun hh => h hh.symm)
      simp only [edgeRel, effDeps, reqList, opLookup, exC1wops, List.find?,
        hx, List.find?_nil, List.filterMap_nil] at hb
      exact absurd hb (List.not_mem_nil b)
  intro a htg
  cases htg with
  | single h => exact hne _ _ h
  | tail _ h => exact hne _ _ h

theorem C1_witness :
    Acyclic exC1wops ∧ (detectSt exC1wops).err = false ∧
    detect_circular_dependencies exC1wops = [] ∧
    "x" ∈ (detectSt exC1wops).visitedGlobal :=
  ⟨exC1wops_acyclic, rfl,
    (C1_traversal exC1wops exC1wops_acyclic rfl).1,
    (C1_traversal exC1wops exC1wops_acyclic rfl).2 "x" (by decide)⟩
